import Mathlib

/-!
# zero: project initialisation flow (`internal/context/init.go`)

A shallow embedding of `Init` and its helpers.  Go maps are association lists
without repeated keys; the order in which a `range` statement visits a map is
an input of the run.  Every call that leaves the process (prompts, directory
creation, module fetches, the credential store, the identity lookup) is an
explicit collaborator in `Env`, and every such call is recorded in a trace.
A run is a function from the state before it to its outcome (a value or a fatal
exit) and the state after it.

The prompt handlers, the conditions, `PromptModuleParams`, the credential store and
the `exit` helpers are used by `init.go` but their sources are missing; they are
modelled from the specification and marked as such.
-/

namespace Zero

/-! ## Go maps -/

/-- A Go `map[string]V`: its entries, one per key. -/
abbrev GoMap (V : Type) := List (String × V)

namespace GoMap

/-- The comma-ok lookup `v, ok := m[k]`. -/
def get? {V : Type} : GoMap V → String → Option V
  | [], _ => none
  | (k', v) :: t, k => if k' = k then some v else get? t k

/-- The assignment `m[k] = v`: overwrites the entry of `k`, or adds one. -/
def set {V : Type} : GoMap V → String → V → GoMap V
  | [], k, v => [(k, v)]
  | (k', v') :: t, k, v => if k' = k then (k', v) :: t else (k', v') :: set t k v

/-- The keys of the map. -/
def keys {V : Type} (m : GoMap V) : List String := m.map Prod.fst

/-- The plain lookup `m[k]`, which yields the zero value for a missing key. -/
def index {V : Type} (m : GoMap V) (k : String) (zero : V) : V := (get? m k).getD zero

end GoMap

/-! ## Data model -/

/-- Modelled from the spec: `moduleconfig.Parameter`, whose declaration is missing;
the spec gives it the fields Field, Label and Default, and `init.go` builds it
with exactly these three. -/
structure Parameter where
  Field : String
  Label : String
  Default : String
  deriving DecidableEq

/-- Modelled from the spec: the condition of a prompt, whose declaration is missing.
The spec names two built-ins, `NoCondition` and `KeyMatchCondition(key, expected)`;
the Go closures are kept as data so that the key a condition reads can be named. -/
inductive Condition where
  | NoCondition
  | KeyMatchCondition (key : String) (value : String)
  deriving DecidableEq

/-- Modelled from the spec: `Evaluate(accumulator)`; `NoCondition` is always true,
`KeyMatchCondition(k, v)` is true iff the accumulator holds `k` with value `v`, and an
absent key gives false. -/
def Condition.Evaluate : Condition → GoMap String → Bool
  | .NoCondition, _ => true
  | .KeyMatchCondition key value, acc =>
    match acc.get? key with
    | some v => decide (v = value)
    | none => false

/-- Modelled from the spec: `PromptHandler`, whose declaration is missing: one parameter
bound to one condition (the two positional fields of the literals in `init.go`). -/
structure PromptHandler where
  Parameter : Parameter
  Condition : Condition
  deriving DecidableEq

/-- Modelled from the spec: `moduleconfig.ModuleConfig`, whose declaration is missing:
a name and the ordered parameters the module declares. -/
structure ModuleConfig where
  Name : String
  Parameters : List Parameter
  deriving DecidableEq

/-- Modelled from the spec: the AWS block of `projectconfig.Infrastructure`, whose
declaration is missing; `fillProviderDetails` reads `Region` and writes `AccountID`. -/
structure AWS where
  AccountID : String
  Region : String
  deriving DecidableEq

/-- Modelled from the spec: `projectconfig.Infrastructure`, whose declaration is missing;
the AWS block is a pointer that may be nil. -/
structure Infrastructure where
  AWS : Option AWS
  deriving DecidableEq

/-- Modelled from the spec: `projectconfig.ZeroProjectConfig`, whose declaration is missing,
with the four fields `defaultProjConfig` fills. -/
structure ZeroProjectConfig where
  Name : String
  Infrastructure : Infrastructure
  Parameters : GoMap String
  Modules : List String
  deriving DecidableEq

/-- Modelled from the spec: the per-project entry of the user-credential store
(package `globalconfig`, source missing); `AccessToken` is the GitHub token `Init` reads and
writes. -/
structure ProjectCredential where
  ProjectName : String
  AccessToken : String
  deriving DecidableEq

/-- Modelled from the spec: the AWS part of `credentials.Secrets` (source missing)
that `fillProviderDetails` passes to the identity lookup. -/
structure Secrets where
  AccessKeyID : String
  SecretAccessKey : String
  deriving DecidableEq

/-- The type `Registry`, a `map[string][]string` from stack label to module sources. -/
abbrev Registry := GoMap (List String)

/-! ## Collaborators and the run state -/

/-- The outcome of `os.MkdirAll` as `Init` tells it apart: no error, an error for
which `os.IsExist` holds, any other error. -/
inductive MkdirResult where
  | ok
  | isExist (err : String)
  | failed (err : String)
  deriving DecidableEq

/-- The error of the identity lookup: an `awserr.Error` or any other error; each
carries its message. -/
inductive LookupError where
  | awsErr (code : String) (message : String)
  | other (message : String)
  deriving DecidableEq

/-- The output `sts.GetCallerIdentityOutput` of the identity lookup: only `Account`, a pointer that may be nil, is read. -/
structure CallerIdentity where
  Account : Option String
  deriving DecidableEq

/-- The collaborators of a run; none of them is code of `init.go`. -/
structure Env where
  /-- The interactive input: how many prompts were shown before, then the label
  and the default shown; `none` is an abort. -/
  input : Nat → String → String → Option String
  /-- The selection widget over the given items; `none` is a failed prompt. -/
  select : List String → Option String
  /-- The path join `path.Join`. -/
  join : String → String → String
  /-- The directory creation `os.MkdirAll`. -/
  mkdirAll : String → MkdirResult
  /-- The fetch `module.FetchModule` of a module source. -/
  FetchModule : String → Except String ModuleConfig
  /-- The order in which `range` visits the loaded modules. -/
  rangeModules : GoMap ModuleConfig → List (String × ModuleConfig)
  /-- The order in which `range` visits the prompted parameters. -/
  rangeParameters : GoMap String → List (String × String)
  /-- The order in which `range` visits the registry. -/
  rangeRegistry : Registry → List (String × List String)

/-- A `range` over a map visits every entry exactly once, in some order. -/
def IsRangeOf {V : Type} (iter : List (String × V)) (m : GoMap V) : Prop := iter.Perm m

/-- Every `range` of the run visits every entry of its map exactly once. -/
def Env.RangeOK (env : Env) : Prop :=
  (∀ m, IsRangeOf (env.rangeModules m) m) ∧
  (∀ m, IsRangeOf (env.rangeParameters m) m) ∧
  (∀ m, IsRangeOf (env.rangeRegistry m) m)

/-- What a run does to the outside, in the order it does it. -/
inductive Event where
  | evalCondition (c : Condition) (acc : GoMap String)
  | input (label : String) (default : String)
  | mkdirAll (path : String)
  | save (cred : ProjectCredential)
  | select (items : List String)
  | fetch (source : String)
  | report (msg : String)
  deriving DecidableEq

/-- The hard failures of a run, one per call of `exit.Fatal` and one for an aborted
prompt. -/
inductive Fatal where
  | promptAbort
  | directoryExists (name : String) (err : String)
  | createRoot (err : String)
  | selectFailed
  | moduleFetch (err : String)
  deriving DecidableEq

/-- The mutable state of a run: the trace so far, the user-credential store, and the
number of prompts shown. -/
structure World where
  trace : List Event
  store : GoMap ProjectCredential
  prompts : Nat
  deriving DecidableEq

/-- The state at the start of a run, over a given credential store. -/
def World.init (store : GoMap ProjectCredential) : World :=
  { trace := [], store := store, prompts := 0 }

/-- Appends an event to the trace. -/
def World.emit (w : World) (e : Event) : World := { w with trace := w.trace ++ [e] }

/-- A step of a run: it ends the process with a `Fatal` or yields a value; the state
it leaves behind is kept either way. -/
def Run (α : Type) : Type := World → Except Fatal α × World

/-- A step that yields `a` and does nothing. -/
def Run.pure {α : Type} (a : α) : Run α := fun w => (.ok a, w)

/-- Sequencing: a fatal exit skips everything after it. -/
def Run.bind {α β : Type} (x : Run α) (f : α → Run β) : Run β := fun w =>
  match x w with
  | (.ok a, w') => f a w'
  | (.error e, w') => (.error e, w')

instance : Monad Run where
  pure := Run.pure
  bind := Run.bind

/-- Modelled from the spec: `exit.Fatal` (package `pkg/util/exit`, source missing): a hard
failure terminates the run at once; nothing after it is executed. -/
def exitFatal {α : Type} (f : Fatal) : Run α := fun w => (.error f, w)

/-- Modelled from the spec: `exit.Error` (package `pkg/util/exit`, source missing): the spec
calls the failure it reports soft, logged/reported with the configuration still
returned, so it reports the message and returns. -/
def exitError (msg : String) : Run Unit := fun w => (.ok (), w.emit (.report msg))

/-- Modelled from the spec: `globalconfig.GetUserCredentials` (source missing): the
secrets previously stored for the project, empty ones when nothing is stored. -/
def GetUserCredentials (projectName : String) : Run ProjectCredential := fun w =>
  (.ok (w.store.index projectName { ProjectName := projectName, AccessToken := "" }), w)

/-- Modelled from the spec: `globalconfig.Save` (source missing): writes the
credentials of a project into the store, keyed by project name. -/
def Save (cred : ProjectCredential) : Run Unit := fun w =>
  (.ok (), { w.emit (.save cred) with store := w.store.set cred.ProjectName cred })

/-- Modelled from the spec: `PromptHandler.GetParam` (source missing): evaluates the
condition on the accumulator; when false it returns the empty string without any
interaction; when true it shows label and default and returns the answer; an abort
is fatal. -/
def GetParam (env : Env) (h : PromptHandler) (acc : GoMap String) : Run String := fun w =>
  let w1 := w.emit (.evalCondition h.Condition acc)
  if h.Condition.Evaluate acc then
    let w2 := { w1.emit (.input h.Parameter.Label h.Parameter.Default) with
                prompts := w1.prompts + 1 }
    match env.input w1.prompts h.Parameter.Label h.Parameter.Default with
    | some answer => (.ok answer, w2)
    | none => exitFatal .promptAbort w2
  else (.ok "", w1)

/-- Modelled from the spec: the loop of `PromptModuleParams` (source missing) over
the parameters of one module in declared order: each is wrapped with `NoCondition`,
resolved with `GetParam` and written into the shared accumulator under its Field, a
later write replacing an earlier one. -/
def PromptModuleParamsLoop (env : Env) : List Parameter → GoMap String → Run (GoMap String)
  | [], parameters => Run.pure parameters
  | p :: rest, parameters =>
    Run.bind (GetParam env { Parameter := p, Condition := .NoCondition } parameters)
      (fun result => PromptModuleParamsLoop env rest (parameters.set p.Field result))

/-- Modelled from the spec: `PromptModuleParams` (source missing): resolves the
parameters of one module into the shared accumulator.  An abort of a handler is the
error that `promptAllModules` turns into `exit.Fatal`; no partial accumulator is
returned then. -/
def PromptModuleParams (env : Env) (moduleConfig : ModuleConfig) (parameters : GoMap String) :
    Run (GoMap String) :=
  PromptModuleParamsLoop env moduleConfig.Parameters parameters

/-! ## `init.go` -/

/-- The function `defaultProjConfig`. -/
def defaultProjConfig : ZeroProjectConfig :=
  { Name := "", Infrastructure := { AWS := none }, Parameters := [], Modules := [] }

/-- The function `getProjectNamePrompt`. -/
def getProjectNamePrompt : PromptHandler :=
  { Parameter := { Field := "projectName", Label := "Project Name", Default := "" },
    Condition := .NoCondition }

/-- The label of the push-upstream prompt. -/
def labelShouldPush : String :=
  "Should the created projects be checked into github automatically? (y/n)"

/-- The label of the organisation prompt. -/
def labelRootOrg : String := "What's the root of the github org to create repositories in?"

/-- The label of the token prompt. -/
def labelToken : String := "Github Personal Access Token with access to the above organization"

/-- The function `getProjectPrompts`; `storedToken` is the value of
`globalconfig.GetUserCredentials(projectName).AccessToken`, read by the caller. -/
def getProjectPrompts (storedToken : String) : GoMap PromptHandler :=
  [ ("ShouldPushRepoUpstream",
      { Parameter := { Field := "ShouldPushRepoUpstream", Label := labelShouldPush,
                       Default := "y" },
        Condition := .NoCondition }),
    ("GithubRootOrg",
      { Parameter := { Field := "GithubRootOrg", Label := labelRootOrg,
                       Default := "github.com/" },
        Condition := .KeyMatchCondition "ShouldPushRepoUpstream" "y" }),
    ("githubPersonalToken",
      { Parameter := { Field := "githubPersonalToken", Label := labelToken,
                       Default := storedToken },
        Condition := .KeyMatchCondition "ShouldPushRepoUpstream" "y" }) ]

/-- The zero value a lookup in the prompt map yields for a missing key; the three
lookups of `Init` all hit. -/
def zeroHandler : PromptHandler :=
  { Parameter := { Field := "", Label := "", Default := "" }, Condition := .NoCondition }

/-- The function `getRegistry`. -/
def getRegistry : Registry :=
  [ ("EKS + Go + React",
      [ "github.com/commitdev/zero-aws-eks-stack",
        "github.com/commitdev/zero-deployable-backend",
        "github.com/commitdev/zero-deployable-react-frontend" ]),
    ("Custom", []) ]

/-- The loop of `availableLabels`: `labels[i] = label; i++` for each visited entry. -/
def availableLabelsLoop : List (String × List String) → List String → Nat → List String
  | [], labels, _ => labels
  | (label, _) :: rest, labels, i => availableLabelsLoop rest (labels.set i label) (i + 1)

/-- The method `Registry.availableLabels`; `iter` is the sequence of entries the `range` over
the registry yields. -/
def availableLabels (registry : Registry) (iter : List (String × List String)) : List String :=
  availableLabelsLoop iter (List.replicate registry.length "") 0

/-- The function `chooseStack`. -/
def chooseStack (env : Env) (registry : Registry) : Run (List String) := fun w =>
  let items := availableLabels registry (env.rangeRegistry registry)
  let w1 := w.emit (.select items)
  match env.select items with
  | none => exitFatal .selectFailed w1
  | some providerResult => (.ok (registry.index providerResult []), w1)

/-- The loop of `loadAllModules`. -/
def loadAllModulesLoop (env : Env) :
    List String → GoMap ModuleConfig → Run (GoMap ModuleConfig)
  | [], modules => Run.pure modules
  | moduleSource :: rest, modules => fun w =>
    let w1 := w.emit (.fetch moduleSource)
    match env.FetchModule moduleSource with
    | .error err => exitFatal (.moduleFetch err) w1
    | .ok mod => loadAllModulesLoop env rest (modules.set mod.Name mod) w1

/-- The function `loadAllModules`. -/
def loadAllModules (env : Env) (moduleSources : List String) : Run (GoMap ModuleConfig) :=
  loadAllModulesLoop env moduleSources []

/-- The loop of `promptAllModules` over the modules in the order they are visited. -/
def promptAllModulesLoop (env : Env) :
    List (String × ModuleConfig) → GoMap String → Run (GoMap String)
  | [], parameterValues => Run.pure parameterValues
  | (_, config) :: rest, parameterValues =>
    Run.bind (PromptModuleParams env config parameterValues)
      (fun parameterValues => promptAllModulesLoop env rest parameterValues)

/-- The function `promptAllModules`; the `range` over the map follows `env.rangeModules`. -/
def promptAllModules (env : Env) (modules : GoMap ModuleConfig) : Run (GoMap String) :=
  promptAllModulesLoop env (env.rangeModules modules) []

/-- The merge loop of `Init`: `projectConfig.Parameters[k] = v` for each visited entry. -/
def mergeParameters (iter : List (String × String)) (parameters : GoMap String) : GoMap String :=
  iter.foldl (fun acc kv => acc.set kv.1 kv.2) parameters

/-- The directory creation of `Init`, with its two fatal exits. -/
def createRoot (env : Env) (name : String) (rootDir : String) : Run Unit := fun w =>
  let w1 := w.emit (.mkdirAll rootDir)
  match env.mkdirAll rootDir with
  | .isExist err => exitFatal (.directoryExists name err) w1
  | .failed err => exitFatal (.createRoot err) w1
  | .ok => (.ok (), w1)

/-- The first part of `Init`, up to and including the token block: the project name,
the root directory and the three top-level prompts.  The log line before the directory
creation has no effect on the run and is left out. -/
def initTopLevel (env : Env) (outDir : String) : Run ZeroProjectConfig := do
  let projectConfig := defaultProjConfig
  let name ← GetParam env getProjectNamePrompt projectConfig.Parameters
  let projectConfig := { projectConfig with Name := name }
  let rootDir := env.join outDir projectConfig.Name
  createRoot env projectConfig.Name rootDir
  let stored ← GetUserCredentials projectConfig.Name
  let prompts := getProjectPrompts stored.AccessToken
  let shouldPush ←
    GetParam env (prompts.index "ShouldPushRepoUpstream" zeroHandler) projectConfig.Parameters
  let projectConfig :=
    { projectConfig with
      Parameters := projectConfig.Parameters.set "ShouldPushRepoUpstream" shouldPush }
  let rootOrg ← GetParam env (prompts.index "GithubRootOrg" zeroHandler) projectConfig.Parameters
  let projectConfig :=
    { projectConfig with Parameters := projectConfig.Parameters.set "GithubRootOrg" rootOrg }
  let personalToken ←
    GetParam env (prompts.index "githubPersonalToken" zeroHandler) projectConfig.Parameters
  let current ← GetUserCredentials projectConfig.Name
  if personalToken ≠ "" ∧ personalToken ≠ current.AccessToken then
    let projectConfig :=
      { projectConfig with
        Parameters := projectConfig.Parameters.set "githubPersonalToken" personalToken }
    let projectCredential ← GetUserCredentials projectConfig.Name
    let projectCredential := { projectCredential with AccessToken := personalToken }
    Save projectCredential
    pure projectConfig
  else
    pure projectConfig

/-- The second part of `Init`, from the stack choice on: load the modules, prompt
their parameters and merge the answers into the project parameters.  The empty loop
over the loaded modules does nothing and is left out. -/
def initModules (env : Env) (projectConfig : ZeroProjectConfig) : Run ZeroProjectConfig := do
  let moduleSources ← chooseStack env getRegistry
  let moduleConfigs ← loadAllModules env moduleSources
  let projectParameters ← promptAllModules env moduleConfigs
  pure { projectConfig with
         Parameters :=
           mergeParameters (env.rangeParameters projectParameters) projectConfig.Parameters }

/-- The function `Init`: its two parts in sequence. -/
def Init (env : Env) (outDir : String) : Run ZeroProjectConfig := do
  let projectConfig ← initTopLevel env outDir
  initModules env projectConfig

/-- The function `fillProviderDetails`; `lookup` is the STS identity call over the region and the
static credentials, returning the caller (possibly nil) and the error (possibly nil).
The configuration is passed by pointer in Go; the updated value is returned here. -/
def fillProviderDetails
    (lookup : String → String → String → Option CallerIdentity × Option LookupError)
    (projectConfig : ZeroProjectConfig) (s : Secrets) : Run ZeroProjectConfig :=
  match projectConfig.Infrastructure.AWS with
  | none => Run.pure projectConfig
  | some awsBlock =>
    let (awsCaller, err) := lookup awsBlock.Region s.AccessKeyID s.SecretAccessKey
    let reported : Run Unit :=
      match err with
      | some (.awsErr _ message) => exitError message
      | some (.other message) => exitError message
      | none => Run.pure ()
    Run.bind reported (fun _ =>
      match awsCaller with
      | some { Account := some account } =>
        Run.pure { projectConfig with
                   Infrastructure := { AWS := some { awsBlock with AccountID := account } } }
      | _ => Run.pure projectConfig)

/-! ## Notions used in the statements -/

/-- The map `loadAllModules` builds from the fetched modules: `modules[mod.Name] = mod`
for each of them in turn. -/
def insertModules (mods : List ModuleConfig) (modules : GoMap ModuleConfig) : GoMap ModuleConfig :=
  mods.foldl (fun acc md => acc.set md.Name md) modules

/-- The events of the module stage of `Init`: the stack selection, the fetches, and
the unconditioned prompts of module parameters. -/
def Event.isModuleStage : Event → Bool
  | .evalCondition .NoCondition _ => true
  | .input _ _ => true
  | .select _ => true
  | .fetch _ => true
  | _ => false

/-- The step from `w` to `w'` leaves the credential store alone and adds only
module-stage events to the trace. -/
def Frame (w w' : World) : Prop :=
  w'.store = w.store ∧ ∃ evs, w'.trace = w.trace ++ evs ∧ ∀ e ∈ evs, e.isModuleStage = true

/-- The Fields the modules of an iteration declare. -/
def declaredFields : List (String × ModuleConfig) → List String
  | [] => []
  | e :: rest => e.2.Parameters.map (fun p => p.Field) ++ declaredFields rest

/-- The token stored for a project before the run: what
`globalconfig.GetUserCredentials(name).AccessToken` reads from `store`. -/
def storedToken (store : GoMap ProjectCredential) (name : String) : String :=
  (store.index name { ProjectName := name, AccessToken := "" }).AccessToken

/-- The credentials `Init` saves for a project when it takes the token `t`. -/
def tokenCredential (store : GoMap ProjectCredential) (name t : String) : ProjectCredential :=
  { store.index name { ProjectName := name, AccessToken := "" } with AccessToken := t }

/-- The trace of a run of `Init` up to the evaluation of the condition of the
organisation prompt, when the push-upstream prompt was answered `a1`. -/
def topTrace (env : Env) (outDir name a1 : String) : List Event :=
  [ .evalCondition .NoCondition [], .input "Project Name" "",
    .mkdirAll (env.join outDir name),
    .evalCondition .NoCondition [], .input labelShouldPush "y",
    .evalCondition (.KeyMatchCondition "ShouldPushRepoUpstream" "y")
      [("ShouldPushRepoUpstream", a1)] ]

/-- The trace of the organisation and token prompts when both are shown. -/
def pushTrace (store : GoMap ProjectCredential) (name org : String) : List Event :=
  [ .input labelRootOrg "github.com/",
    .evalCondition (.KeyMatchCondition "ShouldPushRepoUpstream" "y")
      [("ShouldPushRepoUpstream", "y"), ("GithubRootOrg", org)],
    .input labelToken (storedToken store name) ]

/-- The labels `chooseStack` offers in a run. -/
def stackItems (env : Env) : List String :=
  availableLabels getRegistry (env.rangeRegistry getRegistry)

/-- The events that write the user-credential store. -/
def Event.isSave : Event → Bool
  | .save _ => true
  | _ => false

/-- A run in which the user declines the push upstream and picks the stack without
modules: the prompts are answered "demo" and "n". -/
def envDecline : Env :=
  { input := fun n _ default =>
      match n with
      | 0 => some "demo"
      | 1 => some "n"
      | _ => some default
    select := fun _ => some "Custom"
    join := fun dir name => dir ++ "/" ++ name
    mkdirAll := fun _ => .ok
    FetchModule := fun source => .error source
    rangeModules := fun m => m
    rangeParameters := fun m => m
    rangeRegistry := fun m => m }

/-- A credential store that holds the token "tok" for the project "demo". -/
def storeDemo : GoMap ProjectCredential :=
  [("demo", { ProjectName := "demo", AccessToken := "tok" })]

/-- A run in which the user accepts the push upstream, names an organisation and
answers the token prompt with `token`, then picks the stack without modules. -/
def envAccept (token : String) : Env :=
  { input := fun n _ default =>
      match n with
      | 0 => some "demo"
      | 1 => some "y"
      | 2 => some "github.com/acme"
      | 3 => some token
      | _ => some default
    select := fun _ => some "Custom"
    join := fun dir name => dir ++ "/" ++ name
    mkdirAll := fun _ => .ok
    FetchModule := fun source => .error source
    rangeModules := fun m => m
    rangeParameters := fun m => m
    rangeRegistry := fun m => m }

/-- A module with the given name and parameters; every parameter is labelled by its
Field. -/
def demoModule (name : String) (params : List (String × String)) : ModuleConfig :=
  { Name := name,
    Parameters := params.map (fun p => { Field := p.1, Label := p.1, Default := p.2 }) }

/-- A run that picks the stack "EKS + Go + React" in which the second module source
cannot be fetched; the user accepts every default. -/
def envFetchFails : Env :=
  { input := fun _ _ default => some default
    select := fun _ => some "EKS + Go + React"
    join := fun dir name => dir ++ "/" ++ name
    mkdirAll := fun _ => .ok
    FetchModule := fun source =>
      if source = "github.com/commitdev/zero-aws-eks-stack" then
        .ok (demoModule "aws-eks-stack" [("region", "us-east-1")])
      else if source = "github.com/commitdev/zero-deployable-backend" then
        .error "unreachable"
      else .ok (demoModule "frontend" [("domain", "example.com")])
    rangeModules := fun m => m
    rangeParameters := fun m => m
    rangeRegistry := fun m => m }

/-- A run that picks the stack "EKS + Go + React" with every source fetched; the
first module declares the top-level Field "GithubRootOrg"; the user accepts every
default. -/
def envStack : Env :=
  { input := fun _ _ default => some default
    select := fun _ => some "EKS + Go + React"
    join := fun dir name => dir ++ "/" ++ name
    mkdirAll := fun _ => .ok
    FetchModule := fun source =>
      if source = "github.com/commitdev/zero-aws-eks-stack" then
        .ok (demoModule "aws-eks-stack"
          [("region", "us-east-1"), ("GithubRootOrg", "github.com/acme")])
      else if source = "github.com/commitdev/zero-deployable-backend" then
        .ok (demoModule "backend" [("region", "us-east-1")])
      else .ok (demoModule "frontend" [("domain", "example.com")])
    rangeModules := fun m => m
    rangeParameters := fun m => m
    rangeRegistry := fun m => m }

/-- A fetcher for three sources of which the first and the last yield a module named
"core"; every other source fails. -/
def fetchRepeated (source : String) : Except String ModuleConfig :=
  if source = "src/one" then .ok (demoModule "core" [("region", "us-east-1")])
  else if source = "src/two" then .ok (demoModule "web" [("domain", "example.com")])
  else if source = "src/three" then .ok (demoModule "core" [("zone", "b")])
  else .error "unknown source"

/-- A run over `fetchRepeated` in which the user accepts every default. -/
def envRepeated : Env :=
  { input := fun _ _ default => some default
    select := fun _ => some "Custom"
    join := fun dir name => dir ++ "/" ++ name
    mkdirAll := fun _ => .ok
    FetchModule := fetchRepeated
    rangeModules := fun m => m
    rangeParameters := fun m => m
    rangeRegistry := fun m => m }

/-- A run in which the user accepts every default and the `range` over the loaded
modules follows `order`. -/
def envRange (order : GoMap ModuleConfig → List (String × ModuleConfig)) : Env :=
  { input := fun _ _ default => some default
    select := fun _ => some "Custom"
    join := fun dir name => dir ++ "/" ++ name
    mkdirAll := fun _ => .ok
    FetchModule := fun source => .error source
    rangeModules := order
    rangeParameters := fun m => m
    rangeRegistry := fun m => m }

/-- Two loaded modules, "A" and "B", that both declare the Field "X", with the
defaults "a" and "b". -/
def modulesSharingX : GoMap ModuleConfig :=
  [("A", demoModule "A" [("X", "a")]), ("B", demoModule "B" [("X", "b")])]

/-- A configuration with an AWS block whose account identifier is not set. -/
def configWithAWS : ZeroProjectConfig :=
  { Name := "demo", Infrastructure := { AWS := some { AccountID := "", Region := "us-east-1" } },
    Parameters := [], Modules := [] }

/-- An identity lookup that fails: it returns an output without an account and an
error. -/
def lookupDenied (_region _key _secret : String) : Option CallerIdentity × Option LookupError :=
  (some { Account := none }, some (.awsErr "InvalidClientTokenId" "invalid token"))

/-! ## Lemmas on Go maps -/

namespace GoMap
variable {V : Type}

theorem get?_set (m : GoMap V) (k k' : String) (v : V) :
    (m.set k v).get? k' = if k = k' then some v else m.get? k' := by
  induction m with
  | nil => simp [set, get?]
  | cons e t ih =>
    obtain ⟨k0, v0⟩ := e
    by_cases h0 : k0 = k
    · subst h0
      by_cases h1 : k0 = k' <;> simp [set, get?, h1]
    · by_cases h1 : k0 = k'
      · subst h1
        have : ¬ k = k0 := fun h => h0 h.symm
        simp [set, get?, h0, this]
      · simp [set, get?, h0, h1, ih]

theorem get?_eq_none_iff (m : GoMap V) (k : String) : m.get? k = none ↔ k ∉ m.keys := by
  induction m with
  | nil => simp [get?, keys]
  | cons e t ih =>
    obtain ⟨k0, v0⟩ := e
    by_cases h0 : k0 = k
    · simp [get?, keys, h0]
    · have : ¬ k = k0 := fun h => h0 h.symm
      simpa [get?, keys, h0, this] using ih

theorem mem_of_get? (m : GoMap V) (k : String) (v : V) (h : m.get? k = some v) : (k, v) ∈ m := by
  induction m with
  | nil => simp [get?] at h
  | cons e t ih =>
    obtain ⟨k0, v0⟩ := e
    by_cases h0 : k0 = k
    · simp [get?, h0] at h
      simp [h0, h]
    · simp [get?, h0] at h
      exact List.mem_cons_of_mem _ (ih h)

theorem get?_of_mem (m : GoMap V) (hnd : m.keys.Nodup) (k : String) (v : V) (h : (k, v) ∈ m) :
    m.get? k = some v := by
  induction m with
  | nil => simp at h
  | cons e t ih =>
    obtain ⟨k0, v0⟩ := e
    simp only [keys, List.map_cons, List.nodup_cons] at hnd
    rcases List.mem_cons.mp h with h1 | h1
    · injection h1 with h2 h3
      simp [get?, h2, h3]
    · have hk : k ∈ List.map Prod.fst t := List.mem_map.mpr ⟨(k, v), h1, rfl⟩
      have h0 : ¬ k0 = k := fun h => hnd.1 (h ▸ hk)
      simp only [get?, h0, if_false]
      exact ih hnd.2 h1

theorem keys_set (m : GoMap V) (k : String) (v : V) :
    (m.set k v).keys = if k ∈ m.keys then m.keys else m.keys ++ [k] := by
  induction m with
  | nil => simp [set, keys]
  | cons e t ih =>
    obtain ⟨k0, v0⟩ := e
    by_cases h0 : k0 = k
    · simp [set, keys, h0]
    · have : ¬ k = k0 := fun h => h0 h.symm
      simp only [keys] at ih
      simp only [set, h0, if_false, keys, List.map_cons, ih, List.mem_cons, this, false_or]
      split <;> simp

theorem nodup_keys_set (m : GoMap V) (k : String) (v : V) (h : m.keys.Nodup) :
    (m.set k v).keys.Nodup := by
  rw [keys_set]
  split
  · exact h
  · rename_i hk
    exact List.Nodup.append h (List.nodup_singleton k) (by
      intro a ha hb
      simp at hb
      exact hk (hb ▸ ha))

theorem mem_keys_set (m : GoMap V) (k k' : String) (v : V) :
    k' ∈ (m.set k v).keys ↔ k' = k ∨ k' ∈ m.keys := by
  rw [keys_set]
  split
  · rename_i hk
    constructor
    · exact Or.inr
    · rintro (h | h)
      · exact h ▸ hk
      · exact h
  · simp [or_comm]

theorem get?_perm (m m' : GoMap V) (hnd : m.keys.Nodup) (hp : m'.Perm m) (k : String) :
    m'.get? k = m.get? k := by
  have hnd' : m'.keys.Nodup := (List.Perm.nodup_iff (hp.map Prod.fst)).mpr hnd
  cases h : m.get? k with
  | some v => exact get?_of_mem m' hnd' k v (hp.mem_iff.mpr (mem_of_get? m k v h))
  | none =>
    rw [get?_eq_none_iff] at h ⊢
    intro hk
    exact h ((hp.map Prod.fst).mem_iff.mp hk)

end GoMap

theorem get?_mergeParameters (iter : List (String × String)) (hnd : GoMap.keys iter |>.Nodup)
    (parameters : GoMap String) (k : String) :
    (mergeParameters iter parameters).get? k =
      match GoMap.get? iter k with
      | some v => some v
      | none => parameters.get? k := by
  induction iter generalizing parameters with
  | nil => simp [mergeParameters, GoMap.get?]
  | cons e t ih =>
    obtain ⟨k0, v0⟩ := e
    simp only [GoMap.keys, List.map_cons, List.nodup_cons] at hnd
    have ih' := ih hnd.2 (parameters.set k0 v0)
    simp only [mergeParameters, List.foldl_cons] at ih' ⊢
    rw [ih']
    by_cases h0 : k0 = k
    · subst h0
      have : GoMap.get? t k0 = none := (GoMap.get?_eq_none_iff t k0).mpr hnd.1
      simp [this, GoMap.get?, GoMap.get?_set]
    · simp [GoMap.get?, GoMap.get?_set, h0]

/-! ## The labels of the registry (C6) -/

theorem availableLabelsLoop_eq (iter : List (String × List String)) (labels : List String) (i : Nat)
    (h : i + iter.length ≤ labels.length) :
    availableLabelsLoop iter labels i =
      labels.take i ++ iter.map Prod.fst ++ labels.drop (i + iter.length) := by
  induction iter generalizing labels i with
  | nil => simp [availableLabelsLoop]
  | cons e t ih =>
    obtain ⟨label, mods⟩ := e
    simp only [List.length_cons] at h
    have hi : i < labels.length := by omega
    have h' : (i + 1) + t.length ≤ (labels.set i label).length := by
      rw [List.length_set]; omega
    rw [availableLabelsLoop, ih _ _ h']
    have e1 : (labels.set i label).take (i + 1) = labels.take i ++ [label] := by
      rw [List.set_eq_take_append_cons_drop, if_pos hi]
      have hlen : (List.take i labels).length = i := by simp; omega
      rw [List.take_append_eq_append_take, hlen]
      simp
    have e2 : (labels.set i label).drop (i + 1 + t.length) = labels.drop (i + (t.length + 1)) := by
      rw [List.drop_set_of_lt _ _ (by omega)]
      congr 1
      omega
    rw [e1, e2]
    simp

theorem availableLabels_eq (registry : Registry) (iter : List (String × List String))
    (h : IsRangeOf iter registry) : availableLabels registry iter = iter.map Prod.fst := by
  have hl : iter.length = registry.length := List.Perm.length_eq h
  unfold availableLabels
  rw [availableLabelsLoop_eq _ _ _ (by simp [hl])]
  simp [hl]

/-- C6 (amended): `availableLabels` returns the labels of the registry in the order in
which the `range` over the registry visits them; the result is a permutation of the
registry's labels, each label exactly once. -/
theorem availableLabels_follows_range (registry : Registry) (iter : List (String × List String))
    (h : IsRangeOf iter registry) :
    availableLabels registry iter = iter.map Prod.fst ∧
      (availableLabels registry iter).Perm registry.keys := by
  refine ⟨availableLabels_eq registry iter h, ?_⟩
  rw [availableLabels_eq registry iter h]
  exact List.Perm.map Prod.fst h

/-- C6 (amended) at `getRegistry` visited in reverse order: the labels come back in
that order. -/
theorem availableLabels_follows_range_witness :
    IsRangeOf getRegistry.reverse getRegistry ∧
      availableLabels getRegistry getRegistry.reverse = ["Custom", "EKS + Go + React"] ∧
      (availableLabels getRegistry getRegistry.reverse).Perm getRegistry.keys :=
  ⟨List.reverse_perm _,
   (availableLabels_follows_range getRegistry getRegistry.reverse (List.reverse_perm _)).1.trans rfl,
   (availableLabels_follows_range getRegistry getRegistry.reverse (List.reverse_perm _)).2⟩

/-- C6 (as stated) fails: two visiting orders of `getRegistry` give two different
label sequences, so the result is not a function of the registry alone. -/
theorem availableLabels_order_dependent :
    ¬ (∀ iter₁ iter₂ : List (String × List String),
        IsRangeOf iter₁ getRegistry → IsRangeOf iter₂ getRegistry →
        availableLabels getRegistry iter₁ = availableLabels getRegistry iter₂) := by
  intro h
  have h1 := h getRegistry getRegistry.reverse (List.Perm.refl _) (List.reverse_perm _)
  have h2 : availableLabels getRegistry getRegistry = ["EKS + Go + React", "Custom"] := rfl
  have h3 : availableLabels getRegistry getRegistry.reverse = ["Custom", "EKS + Go + React"] := rfl
  rw [h2, h3] at h1
  exact absurd h1 (by decide)

/-! ## The loop of `loadAllModules` -/

theorem loadAllModulesLoop_ok (env : Env) (sources : List String) (fetched : List ModuleConfig)
    (h : List.Forall₂ (fun s md => env.FetchModule s = .ok md) sources fetched)
    (modules : GoMap ModuleConfig) (w : World) :
    loadAllModulesLoop env sources modules w =
      (.ok (insertModules fetched modules),
       { w with trace := w.trace ++ sources.map Event.fetch }) := by
  induction h generalizing modules w with
  | nil => simp [loadAllModulesLoop, Run.pure, insertModules]
  | cons hs _ ih =>
    simp only [loadAllModulesLoop, hs, ih, World.emit, exitFatal, insertModules, List.foldl_cons,
      List.map_cons, List.append_assoc, List.singleton_append]

theorem loadAllModulesLoop_error (env : Env) (pre : List String) (s : String) (post : List String)
    (err : String) (hpre : ∀ p ∈ pre, ∃ md, env.FetchModule p = .ok md)
    (hs : env.FetchModule s = .error err) (modules : GoMap ModuleConfig) (w : World) :
    loadAllModulesLoop env (pre ++ s :: post) modules w =
      (.error (.moduleFetch err),
       { w with trace := w.trace ++ (pre ++ [s]).map Event.fetch }) := by
  induction pre generalizing modules w with
  | nil => simp [loadAllModulesLoop, hs, World.emit, exitFatal]
  | cons p t ih =>
    obtain ⟨md, hmd⟩ := hpre p (List.mem_cons_self _ _)
    have ht : ∀ q ∈ t, ∃ md, env.FetchModule q = .ok md :=
      fun q hq => hpre q (List.mem_cons_of_mem _ hq)
    show loadAllModulesLoop env (p :: (t ++ s :: post)) modules w = _
    simp only [loadAllModulesLoop, hmd, ih ht, World.emit, exitFatal, List.cons_append, List.map_cons, List.nil_append,
      List.append_assoc, List.singleton_append]

/-- Either every source fetches, or there is a first one that does not. -/
theorem fetch_all_or_first_failure (env : Env) (sources : List String) :
    (∃ fetched, List.Forall₂ (fun s md => env.FetchModule s = .ok md) sources fetched) ∨
    (∃ pre s post err, sources = pre ++ s :: post ∧
      (∀ p ∈ pre, ∃ md, env.FetchModule p = .ok md) ∧ env.FetchModule s = .error err) := by
  induction sources with
  | nil => exact Or.inl ⟨[], List.Forall₂.nil⟩
  | cons a t ih =>
    cases ha : env.FetchModule a with
    | error err => exact Or.inr ⟨[], a, t, err, rfl, by simp, ha⟩
    | ok md =>
      rcases ih with ⟨fetched, hf⟩ | ⟨pre, s, post, err, rfl, hpre, hs⟩
      · exact Or.inl ⟨md :: fetched, List.Forall₂.cons ha hf⟩
      · refine Or.inr ⟨a :: pre, s, post, err, rfl, ?_, hs⟩
        intro p hp
        rcases List.mem_cons.mp hp with rfl | hp
        · exact ⟨md, ha⟩
        · exact hpre p hp

theorem get?_insertModules (mods : List ModuleConfig) (modules : GoMap ModuleConfig) (n : String) :
    (insertModules mods modules).get? n =
      match mods.reverse.find? (fun md => decide (md.Name = n)) with
      | some md => some md
      | none => modules.get? n := by
  induction mods using List.reverseRecOn with
  | nil => simp [insertModules]
  | append_singleton init x ih =>
    simp only [insertModules] at ih
    simp only [insertModules, List.foldl_append, List.foldl_cons, List.foldl_nil,
      List.reverse_append, List.reverse_cons, List.reverse_nil, List.nil_append,
      List.singleton_append, List.find?_cons, GoMap.get?_set]
    by_cases hx : x.Name = n
    · simp [hx]
    · simp [hx, ih]

theorem mem_keys_insertModules (mods : List ModuleConfig) (modules : GoMap ModuleConfig)
    (n : String) :
    n ∈ (insertModules mods modules).keys ↔ n ∈ mods.map (fun md => md.Name) ∨ n ∈ modules.keys := by
  induction mods generalizing modules with
  | nil => simp [insertModules]
  | cons x t ih =>
    have := ih (modules.set x.Name x)
    simp only [insertModules, List.foldl_cons] at this ⊢
    rw [this, GoMap.mem_keys_set]
    simp only [List.map_cons, List.mem_cons]
    tauto

theorem nodup_keys_insertModules (mods : List ModuleConfig) (modules : GoMap ModuleConfig)
    (h : modules.keys.Nodup) : (insertModules mods modules).keys.Nodup := by
  induction mods generalizing modules with
  | nil => simpa [insertModules] using h
  | cons x t ih =>
    have := ih (modules.set x.Name x) (GoMap.nodup_keys_set _ _ _ h)
    simpa only [insertModules, List.foldl_cons] using this

theorem length_eq_iff_nodup_of_keys {names keys : List String} (hk : keys.Nodup)
    (hmem : ∀ n, n ∈ keys ↔ n ∈ names) : keys.length = names.length ↔ names.Nodup := by
  have hperm : keys.Perm names.dedup :=
    (List.perm_ext_iff_of_nodup hk (List.nodup_dedup names)).mpr
      (fun n => by rw [hmem n, List.mem_dedup])
  rw [hperm.length_eq]
  constructor
  · intro hlen
    have := (List.dedup_sublist names).eq_of_length hlen
    exact List.dedup_eq_self.mp this
  · intro hnd
    rw [hnd.dedup]

/-! ## Runs and the prompting loops -/

theorem bind_apply {α β : Type} (x : Run α) (f : α → Run β) (w : World) :
    (x >>= f) w = match x w with
      | (.ok a, w') => f a w'
      | (.error e, w') => (.error e, w') := rfl

theorem pure_apply {α : Type} (a : α) (w : World) : (pure a : Run α) w = (.ok a, w) := rfl

theorem Frame.refl (w : World) : Frame w w := ⟨rfl, [], by simp, by simp⟩

theorem Frame.trans {w₁ w₂ w₃ : World} (h₁ : Frame w₁ w₂) (h₂ : Frame w₂ w₃) : Frame w₁ w₃ := by
  obtain ⟨hs₁, e₁, ht₁, hp₁⟩ := h₁
  obtain ⟨hs₂, e₂, ht₂, hp₂⟩ := h₂
  refine ⟨hs₂.trans hs₁, e₁ ++ e₂, by rw [ht₂, ht₁, List.append_assoc], ?_⟩
  intro e he
  rcases List.mem_append.mp he with h | h
  · exact hp₁ e h
  · exact hp₂ e h

theorem GetParam_noCondition (env : Env) (p : Parameter) (acc : GoMap String) (w : World) :
    GetParam env { Parameter := p, Condition := .NoCondition } acc w =
      match env.input w.prompts p.Label p.Default with
      | some answer =>
        (.ok answer,
         { trace := w.trace ++ [.evalCondition .NoCondition acc, .input p.Label p.Default],
           store := w.store, prompts := w.prompts + 1 })
      | none =>
        (.error .promptAbort,
         { trace := w.trace ++ [.evalCondition .NoCondition acc, .input p.Label p.Default],
           store := w.store, prompts := w.prompts + 1 }) := by
  cases h : env.input w.prompts p.Label p.Default <;>
    simp [GetParam, Condition.Evaluate, World.emit, exitFatal, h]

theorem GetParam_noCondition_frame (env : Env) (p : Parameter) (acc : GoMap String) (w : World) :
    Frame w (GetParam env { Parameter := p, Condition := .NoCondition } acc w).2 := by
  rw [GetParam_noCondition]
  cases env.input w.prompts p.Label p.Default <;>
    exact ⟨rfl, _, rfl, by simp [Event.isModuleStage]⟩

theorem PromptModuleParams_frame (env : Env) (params : List Parameter) (acc : GoMap String)
    (w : World) : Frame w (PromptModuleParamsLoop env params acc w).2 := by
  induction params generalizing acc w with
  | nil => exact Frame.refl w
  | cons p rest ih =>
    have h1 := GetParam_noCondition_frame env p acc w
    simp only [PromptModuleParamsLoop, Run.bind]
    cases hg : GetParam env { Parameter := p, Condition := .NoCondition } acc w with
    | mk r w1 =>
      rw [hg] at h1
      cases r with
      | error e => exact h1
      | ok a => exact h1.trans (ih _ _)

theorem PromptModuleParams_get? (env : Env) (params : List Parameter) (acc : GoMap String)
    (w : World) (res : GoMap String) (w' : World)
    (h : PromptModuleParamsLoop env params acc w = (.ok res, w')) :
    (∀ k, k ∉ params.map (fun p => p.Field) → res.get? k = acc.get? k) ∧
    (∀ k, k ∈ params.map (fun p => p.Field) → res.get? k ≠ none) ∧
    (∀ k, acc.get? k ≠ none → res.get? k ≠ none) ∧
    (acc.keys.Nodup → res.keys.Nodup) := by
  induction params generalizing acc w with
  | nil =>
    simp only [PromptModuleParamsLoop, Run.pure, Prod.mk.injEq, Except.ok.injEq] at h
    obtain ⟨rfl, _⟩ := h
    simp
  | cons p rest ih =>
    simp only [PromptModuleParamsLoop, Run.bind] at h
    cases hg : GetParam env { Parameter := p, Condition := .NoCondition } acc w with
    | mk r w1 =>
      rw [hg] at h
      cases r with
      | error e => simp at h
      | ok a =>
        obtain ⟨h1, h2, h3, h4⟩ := ih _ _ h
        refine ⟨?_, ?_, ?_, ?_⟩
        · intro k hk
          simp only [List.map_cons, List.mem_cons, not_or] at hk
          rw [h1 k hk.2, GoMap.get?_set]
          have : ¬ p.Field = k := fun e => hk.1 e.symm
          simp [this]
        · intro k hk
          simp only [List.map_cons, List.mem_cons] at hk
          by_cases hr : k ∈ rest.map (fun p => p.Field)
          · exact h2 k hr
          · have hk' : k = p.Field := by tauto
            apply h3
            rw [GoMap.get?_set]
            simp [hk']
        · intro k hk
          apply h3
          rw [GoMap.get?_set]
          split
          · simp
          · exact hk
        · intro hnd
          exact h4 (GoMap.nodup_keys_set _ _ _ hnd)

theorem promptAllModulesLoop_frame (env : Env) (iter : List (String × ModuleConfig))
    (acc : GoMap String) (w : World) : Frame w (promptAllModulesLoop env iter acc w).2 := by
  induction iter generalizing acc w with
  | nil => exact Frame.refl w
  | cons e rest ih =>
    obtain ⟨n, config⟩ := e
    have h1 : Frame w (PromptModuleParams env config acc w).2 :=
      PromptModuleParams_frame env config.Parameters acc w
    simp only [promptAllModulesLoop, Run.bind]
    cases hg : PromptModuleParams env config acc w with
    | mk r w1 =>
      rw [hg] at h1
      cases r with
      | error e => exact h1
      | ok a => exact h1.trans (ih _ _)

theorem promptAllModulesLoop_get? (env : Env) (iter : List (String × ModuleConfig))
    (acc : GoMap String) (w : World) (res : GoMap String) (w' : World)
    (h : promptAllModulesLoop env iter acc w = (.ok res, w')) :
    (∀ k, k ∉ declaredFields iter → res.get? k = acc.get? k) ∧
    (∀ k, k ∈ declaredFields iter → res.get? k ≠ none) ∧
    (∀ k, acc.get? k ≠ none → res.get? k ≠ none) ∧
    (acc.keys.Nodup → res.keys.Nodup) := by
  induction iter generalizing acc w with
  | nil =>
    simp only [promptAllModulesLoop, Run.pure, Prod.mk.injEq, Except.ok.injEq] at h
    obtain ⟨rfl, _⟩ := h
    simp [declaredFields]
  | cons e rest ih =>
    obtain ⟨n, config⟩ := e
    simp only [promptAllModulesLoop, Run.bind] at h
    cases hg : PromptModuleParams env config acc w with
    | mk r w1 =>
      rw [hg] at h
      cases r with
      | error e => simp at h
      | ok a =>
        obtain ⟨h1, h2, h3, h4⟩ := ih _ _ h
        obtain ⟨g1, g2, g3, g4⟩ := PromptModuleParams_get? env _ _ _ _ _ hg
        simp only [declaredFields, List.mem_append, not_or]
        refine ⟨?_, ?_, ?_, ?_⟩
        · intro k hk
          rw [h1 k hk.2, g1 k hk.1]
        · intro k hk
          rcases hk with hk | hk
          · exact h3 k (g2 k hk)
          · exact h2 k hk
        · intro k hk
          exact h3 k (g3 k hk)
        · intro hnd
          exact h4 (g4 hnd)

/-! ## The top-level stage of `Init` -/

theorem initTopLevel_skip (env : Env) (outDir : String) (store : GoMap ProjectCredential)
    (name a1 : String) (h0 : env.input 0 "Project Name" "" = some name)
    (hmk : env.mkdirAll (env.join outDir name) = .ok)
    (h1 : env.input 1 labelShouldPush "y" = some a1) (hy : a1 ≠ "y") :
    initTopLevel env outDir (World.init store) =
      (.ok { Name := name, Infrastructure := { AWS := none },
             Parameters := [("ShouldPushRepoUpstream", a1), ("GithubRootOrg", "")],
             Modules := [] },
       { trace := topTrace env outDir name a1 ++
           [.evalCondition (.KeyMatchCondition "ShouldPushRepoUpstream" "y")
              [("ShouldPushRepoUpstream", a1), ("GithubRootOrg", "")]],
         store := store, prompts := 2 }) := by
  simp [initTopLevel, bind_apply, pure_apply, GetParam, getProjectNamePrompt,
    defaultProjConfig, Condition.Evaluate, World.emit, exitFatal, World.init, h0, createRoot,
    hmk, GetUserCredentials, getProjectPrompts, GoMap.index, GoMap.get?, h1,
    GoMap.set, hy, Save, topTrace]

theorem initTopLevel_push (env : Env) (outDir : String) (store : GoMap ProjectCredential)
    (name org t : String) (h0 : env.input 0 "Project Name" "" = some name)
    (hmk : env.mkdirAll (env.join outDir name) = .ok)
    (h1 : env.input 1 labelShouldPush "y" = some "y")
    (h2 : env.input 2 labelRootOrg "github.com/" = some org)
    (h3 : env.input 3 labelToken (storedToken store name) = some t) :
    initTopLevel env outDir (World.init store) =
      if t ≠ "" ∧ t ≠ storedToken store name then
        (.ok { Name := name, Infrastructure := { AWS := none },
               Parameters := [("ShouldPushRepoUpstream", "y"), ("GithubRootOrg", org),
                              ("githubPersonalToken", t)],
               Modules := [] },
         { trace := topTrace env outDir name "y" ++ pushTrace store name org ++
             [.save (tokenCredential store name t)],
           store := store.set (tokenCredential store name t).ProjectName
                      (tokenCredential store name t),
           prompts := 4 })
      else
        (.ok { Name := name, Infrastructure := { AWS := none },
               Parameters := [("ShouldPushRepoUpstream", "y"), ("GithubRootOrg", org)],
               Modules := [] },
         { trace := topTrace env outDir name "y" ++ pushTrace store name org,
           store := store, prompts := 4 }) := by
  simp only [storedToken, GoMap.index] at h3
  by_cases ht : t ≠ "" ∧ t ≠ storedToken store name
  · rw [if_pos ht]
    simp only [storedToken, GoMap.index] at ht
    simp [initTopLevel, bind_apply, pure_apply, GetParam, getProjectNamePrompt,
      defaultProjConfig, Condition.Evaluate, World.emit, exitFatal, World.init, h0, createRoot,
      hmk, GetUserCredentials, getProjectPrompts, GoMap.index, GoMap.get?, h1,
      GoMap.set, h2, h3, ht, Save, topTrace, pushTrace, storedToken, tokenCredential]
  · rw [if_neg ht]
    simp only [storedToken, GoMap.index] at ht
    simp [initTopLevel, bind_apply, pure_apply, GetParam, getProjectNamePrompt,
      defaultProjConfig, Condition.Evaluate, World.emit, exitFatal, World.init, h0, createRoot,
      hmk, GetUserCredentials, getProjectPrompts, GoMap.index, GoMap.get?, h1,
      GoMap.set, h2, h3, ht, Save, topTrace, pushTrace, storedToken, tokenCredential]

/-- The ways the top-level stage of a run goes: aborted at the project name, stopped
at the directory, aborted at one of the three prompts, or completed with the two
GitHub prompts skipped or shown. -/
theorem initTopLevel_cases (env : Env) (outDir : String) (store : GoMap ProjectCredential) :
    (∃ e, initTopLevel env outDir (World.init store) =
        (.error e, { trace := [.evalCondition .NoCondition [], .input "Project Name" ""],
                     store := store, prompts := 1 })) ∨
    (∃ name, ∃ e, initTopLevel env outDir (World.init store) =
        (.error e, { trace := [.evalCondition .NoCondition [], .input "Project Name" "",
                               .mkdirAll (env.join outDir name)],
                     store := store, prompts := 1 })) ∨
    (∃ name, ∃ e, initTopLevel env outDir (World.init store) =
        (.error e, { trace := [.evalCondition .NoCondition [], .input "Project Name" "",
                               .mkdirAll (env.join outDir name),
                               .evalCondition .NoCondition [], .input labelShouldPush "y"],
                     store := store, prompts := 2 })) ∨
    (∃ name, ∃ e, initTopLevel env outDir (World.init store) =
        (.error e, { trace := topTrace env outDir name "y" ++ [.input labelRootOrg "github.com/"],
                     store := store, prompts := 3 })) ∨
    (∃ name org, ∃ e, initTopLevel env outDir (World.init store) =
        (.error e, { trace := topTrace env outDir name "y" ++ pushTrace store name org,
                     store := store, prompts := 4 })) ∨
    (∃ name a1, env.input 0 "Project Name" "" = some name ∧
        env.mkdirAll (env.join outDir name) = .ok ∧
        env.input 1 labelShouldPush "y" = some a1 ∧ a1 ≠ "y") ∨
    (∃ name org t, env.input 0 "Project Name" "" = some name ∧
        env.mkdirAll (env.join outDir name) = .ok ∧
        env.input 1 labelShouldPush "y" = some "y" ∧
        env.input 2 labelRootOrg "github.com/" = some org ∧
        env.input 3 labelToken (storedToken store name) = some t) := by
  cases h0 : env.input 0 "Project Name" "" with
  | none =>
    refine Or.inl ⟨.promptAbort, ?_⟩
    simp [initTopLevel, bind_apply, pure_apply, GetParam, getProjectNamePrompt, defaultProjConfig,
      Condition.Evaluate, World.emit, exitFatal, World.init, h0]
  | some name =>
    cases hmk : env.mkdirAll (env.join outDir name) with
    | isExist err =>
      refine Or.inr (Or.inl ⟨name, .directoryExists name err, ?_⟩)
      simp [initTopLevel, bind_apply, pure_apply, GetParam, getProjectNamePrompt, defaultProjConfig,
        Condition.Evaluate, World.emit, exitFatal, World.init, h0, createRoot, hmk]
    | failed err =>
      refine Or.inr (Or.inl ⟨name, .createRoot err, ?_⟩)
      simp [initTopLevel, bind_apply, pure_apply, GetParam, getProjectNamePrompt, defaultProjConfig,
        Condition.Evaluate, World.emit, exitFatal, World.init, h0, createRoot, hmk]
    | ok =>
      cases h1 : env.input 1 labelShouldPush "y" with
      | none =>
        refine Or.inr (Or.inr (Or.inl ⟨name, .promptAbort, ?_⟩))
        simp [initTopLevel, bind_apply, pure_apply, GetParam, getProjectNamePrompt,
          defaultProjConfig, Condition.Evaluate, World.emit, exitFatal, World.init, h0, createRoot, hmk,
          GetUserCredentials, getProjectPrompts, GoMap.index, GoMap.get?, h1]
      | some a1 =>
        by_cases hy : a1 = "y"
        · subst hy
          cases h2 : env.input 2 labelRootOrg "github.com/" with
          | none =>
            refine Or.inr (Or.inr (Or.inr (Or.inl ⟨name, .promptAbort, ?_⟩)))
            simp [initTopLevel, bind_apply, pure_apply, GetParam, getProjectNamePrompt,
              defaultProjConfig, Condition.Evaluate, World.emit, exitFatal, World.init, h0, createRoot, hmk,
              GetUserCredentials, getProjectPrompts, GoMap.index, GoMap.get?, h1, GoMap.set,
              h2, topTrace]
          | some org =>
            cases h3 : env.input 3 labelToken (storedToken store name) with
            | none =>
              refine Or.inr (Or.inr (Or.inr (Or.inr (Or.inl ⟨name, org, .promptAbort, ?_⟩))))
              simp only [storedToken, GoMap.index] at h3
              simp [initTopLevel, bind_apply, pure_apply, GetParam, getProjectNamePrompt,
                defaultProjConfig, Condition.Evaluate, World.emit, exitFatal, World.init, h0, createRoot,
                hmk, GetUserCredentials, getProjectPrompts, GoMap.index, GoMap.get?, h1,
                GoMap.set, h2, h3, topTrace, pushTrace, storedToken]
            | some t =>
              exact Or.inr (Or.inr (Or.inr (Or.inr (Or.inr (Or.inr
                ⟨name, org, t, rfl, hmk, rfl, rfl, h3⟩)))))
        · exact Or.inr (Or.inr (Or.inr (Or.inr (Or.inr (Or.inl ⟨name, a1, rfl, hmk, rfl, hy⟩)))))

/-! ## The module stage of `Init` and the merge (C9) -/

theorem Init_eq (env : Env) (outDir : String) (w : World) :
    Init env outDir w =
      match initTopLevel env outDir w with
      | (.ok top, w1) => initModules env top w1
      | (.error e, w1) => (.error e, w1) := by
  simp only [Init, bind_apply]
  rcases initTopLevel env outDir w with ⟨_ | _, _⟩ <;> rfl

theorem Init_of_top_ok (env : Env) (outDir : String) (w : World) (top : ZeroProjectConfig)
    (w1 : World) (h : initTopLevel env outDir w = (.ok top, w1)) :
    Init env outDir w = initModules env top w1 := by
  rw [Init_eq, h]

theorem chooseStack_eq (env : Env) (w : World) :
    chooseStack env getRegistry w =
      match env.select (stackItems env) with
      | none => (.error .selectFailed, w.emit (.select (stackItems env)))
      | some label => (.ok (getRegistry.index label []), w.emit (.select (stackItems env))) := rfl

theorem initModules_eq (env : Env) (cfg : ZeroProjectConfig) (w : World) :
    initModules env cfg w =
      match chooseStack env getRegistry w with
      | (.error e, w1) => (.error e, w1)
      | (.ok sources, w1) =>
        match loadAllModules env sources w1 with
        | (.error e, w2) => (.error e, w2)
        | (.ok mods, w2) =>
          match promptAllModules env mods w2 with
          | (.error e, w3) => (.error e, w3)
          | (.ok pv, w3) =>
            (.ok { cfg with
                   Parameters := mergeParameters (env.rangeParameters pv) cfg.Parameters }, w3) := by
  simp only [initModules, bind_apply, pure_apply]
  rcases chooseStack env getRegistry w with ⟨_ | sources, w1⟩
  · rfl
  · simp only []
    rcases loadAllModules env sources w1 with ⟨_ | mods, w2⟩
    · rfl
    · simp only []
      rcases promptAllModules env mods w2 with ⟨_ | pv, w3⟩ <;> rfl

theorem emit_frame (w : World) (e : Event) (he : e.isModuleStage = true) : Frame w (w.emit e) :=
  ⟨rfl, [e], rfl, by simpa using he⟩

theorem chooseStack_frame (env : Env) (w : World) : Frame w (chooseStack env getRegistry w).2 := by
  rw [chooseStack_eq]
  cases env.select (stackItems env) <;> exact emit_frame w _ rfl

theorem loadAllModules_frame (env : Env) (sources : List String) (w : World) :
    Frame w (loadAllModules env sources w).2 := by
  rcases fetch_all_or_first_failure env sources with ⟨fetched, hf⟩ | ⟨pre, s, post, err, rfl, hpre, hs⟩
  · rw [loadAllModules, loadAllModulesLoop_ok env sources fetched hf]
    exact ⟨rfl, _, rfl, by simp [Event.isModuleStage]⟩
  · rw [loadAllModules, loadAllModulesLoop_error env pre s post err hpre hs]
    refine ⟨rfl, _, rfl, ?_⟩
    intro e he
    obtain ⟨a, _, rfl⟩ := List.mem_map.mp he
    rfl

theorem initModules_frame (env : Env) (cfg : ZeroProjectConfig) (w : World) :
    Frame w (initModules env cfg w).2 := by
  rw [initModules_eq]
  have h1 := chooseStack_frame env w
  rcases hc : chooseStack env getRegistry w with ⟨_ | sources, w1⟩
  · simpa only [hc] using h1
  · simp only [hc] at h1 ⊢
    have h2 := loadAllModules_frame env sources w1
    rcases hl : loadAllModules env sources w1 with ⟨_ | mods, w2⟩
    · simp only [hl] at h2 ⊢
      exact h1.trans h2
    · simp only [hl] at h2 ⊢
      have h3 := promptAllModulesLoop_frame env (env.rangeModules mods) [] w2
      have h12 := h1.trans h2
      rcases hp : promptAllModules env mods w2 with ⟨_ | pv, w3⟩
      · simp only [promptAllModules] at hp
        simp only [hp] at h3 ⊢
        exact h12.trans h3
      · simp only [promptAllModules] at hp
        simp only [hp] at h3 ⊢
        exact h12.trans h3

theorem initModules_ok (env : Env) (cfg cfg' : ZeroProjectConfig) (w w' : World)
    (h : initModules env cfg w = (.ok cfg', w')) :
    ∃ sources w1 mods w2 pv,
      chooseStack env getRegistry w = (.ok sources, w1) ∧
      loadAllModules env sources w1 = (.ok mods, w2) ∧
      promptAllModules env mods w2 = (.ok pv, w') ∧
      cfg' = { cfg with
               Parameters := mergeParameters (env.rangeParameters pv) cfg.Parameters } := by
  rw [initModules_eq] at h
  rcases hc : chooseStack env getRegistry w with ⟨_ | sources, w1⟩
  · simp [hc] at h
  · rcases hl : loadAllModules env sources w1 with ⟨_ | mods, w2⟩
    · simp [hc, hl] at h
    · rcases hp : promptAllModules env mods w2 with ⟨_ | pv, w3⟩
      · simp [hc, hl, hp] at h
      · simp only [hc, hl, hp, Prod.mk.injEq, Except.ok.injEq] at h
        obtain ⟨rfl, rfl⟩ := h
        exact ⟨sources, w1, mods, w2, pv, rfl, hl, hp, rfl⟩

theorem Init_ok (env : Env) (outDir : String) (w : World) (cfg : ZeroProjectConfig) (w' : World)
    (h : Init env outDir w = (.ok cfg, w')) :
    ∃ top w1, initTopLevel env outDir w = (.ok top, w1) ∧ initModules env top w1 = (.ok cfg, w') := by
  rw [Init_eq] at h
  rcases ht : initTopLevel env outDir w with ⟨_ | top, w1⟩
  · simp [ht] at h
  · rw [ht] at h
    exact ⟨top, w1, rfl, h⟩

theorem promptAllModules_nodup (env : Env) (mods : GoMap ModuleConfig) (w : World)
    (pv : GoMap String) (w' : World) (h : promptAllModules env mods w = (.ok pv, w')) :
    pv.keys.Nodup :=
  (promptAllModulesLoop_get? env _ _ _ _ _ h).2.2.2 (by simp [GoMap.keys])

theorem get?_merge_range (env : Env) (hr : env.RangeOK) (pv : GoMap String) (hnd : pv.keys.Nodup)
    (parameters : GoMap String) (k : String) :
    (mergeParameters (env.rangeParameters pv) parameters).get? k =
      match pv.get? k with
      | some v => some v
      | none => parameters.get? k := by
  have hp : (env.rangeParameters pv).Perm pv := hr.2.1 pv
  have hnd' : GoMap.keys (env.rangeParameters pv) |>.Nodup :=
    (List.Perm.nodup_iff (hp.map Prod.fst)).mpr hnd
  rw [get?_mergeParameters _ hnd', GoMap.get?_perm pv _ hnd hp]

/-- A returning run of `Init` is a returning top-level stage followed by the stack
choice, the loading of the modules and their prompting, all returning; the returned
configuration is the top-level one with the prompted parameters merged in. -/
theorem Init_stages (env : Env) (outDir : String) (store : GoMap ProjectCredential)
    (cfg : ZeroProjectConfig) (w : World)
    (h : Init env outDir (World.init store) = (.ok cfg, w)) :
    ∃ top w1 sources w2 mods w3 pv,
      initTopLevel env outDir (World.init store) = (.ok top, w1) ∧
      chooseStack env getRegistry w1 = (.ok sources, w2) ∧
      loadAllModules env sources w2 = (.ok mods, w3) ∧
      promptAllModules env mods w3 = (.ok pv, w) ∧
      pv.keys.Nodup ∧
      cfg = { top with
              Parameters := mergeParameters (env.rangeParameters pv) top.Parameters } := by
  obtain ⟨top, w1, ht, hm⟩ := Init_ok env outDir _ cfg w h
  obtain ⟨sources, w2, mods, w3, pv, hc, hl, hp, rfl⟩ := initModules_ok env top cfg w1 w hm
  exact ⟨top, w1, sources, w2, mods, w3, pv, ht, hc, hl, hp,
    promptAllModules_nodup env mods w3 pv w hp, rfl⟩

/-- C9: in a run of `Init` that returns, the returned parameters are the top-level
parameters overridden by the map `promptAllModules` returned: every top-level key is
still there, every module key is there with the module value, every other key keeps
its top-level value, and there is no further key. -/
theorem init_parameters_grow (env : Env) (hr : env.RangeOK) (outDir : String)
    (store : GoMap ProjectCredential) (cfg : ZeroProjectConfig) (w : World)
    (h : Init env outDir (World.init store) = (.ok cfg, w)) :
    ∃ top w1 sources w2 mods w3 pv,
      initTopLevel env outDir (World.init store) = (.ok top, w1) ∧
      chooseStack env getRegistry w1 = (.ok sources, w2) ∧
      loadAllModules env sources w2 = (.ok mods, w3) ∧
      promptAllModules env mods w3 = (.ok pv, w) ∧
      (∀ k, top.Parameters.get? k ≠ none → cfg.Parameters.get? k ≠ none) ∧
      (∀ k v, pv.get? k = some v → cfg.Parameters.get? k = some v) ∧
      (∀ k, pv.get? k = none → cfg.Parameters.get? k = top.Parameters.get? k) ∧
      (∀ k, cfg.Parameters.get? k ≠ none → pv.get? k ≠ none ∨ top.Parameters.get? k ≠ none) := by
  obtain ⟨top, w1, sources, w2, mods, w3, pv, ht, hc, hl, hp, hnd, rfl⟩ :=
    Init_stages env outDir store cfg w h
  refine ⟨top, w1, sources, w2, mods, w3, pv, ht, hc, hl, hp, ?_, ?_, ?_, ?_⟩
  · intro k hk
    simp only [get?_merge_range env hr pv hnd]
    cases pv.get? k <;> simp [hk]
  · intro k v hv
    simp only [get?_merge_range env hr pv hnd, hv]
  · intro k hv
    simp only [get?_merge_range env hr pv hnd, hv]
  · intro k hk
    simp only [get?_merge_range env hr pv hnd] at hk
    cases hv : pv.get? k with
    | some v => exact Or.inl (by simp)
    | none =>
      rw [hv] at hk
      exact Or.inr hk

/-- C9 at `envStack`, a run of the stack "EKS + Go + React" whose first module declares the
top-level Field "GithubRootOrg": the module value replaces the top-level one. -/
theorem init_parameters_grow_witness :
    (Init envStack "out" (World.init [])).1 =
      .ok { Name := "", Infrastructure := { AWS := none },
            Parameters := [("ShouldPushRepoUpstream", "y"), ("GithubRootOrg", "github.com/acme"),
                           ("region", "us-east-1"), ("domain", "example.com")],
            Modules := [] } ∧
    ∃ top w1 sources w2 mods w3 pv,
      initTopLevel envStack "out" (World.init []) = (.ok top, w1) ∧
      chooseStack envStack getRegistry w1 = (.ok sources, w2) ∧
      loadAllModules envStack sources w2 = (.ok mods, w3) ∧
      promptAllModules envStack mods w3 = (.ok pv, (Init envStack "out" (World.init [])).2) ∧
      (∀ k, top.Parameters.get? k ≠ none →
        GoMap.get? [("ShouldPushRepoUpstream", "y"), ("GithubRootOrg", "github.com/acme"),
                    ("region", "us-east-1"), ("domain", "example.com")] k ≠ none) ∧
      (∀ k v, pv.get? k = some v →
        GoMap.get? [("ShouldPushRepoUpstream", "y"), ("GithubRootOrg", "github.com/acme"),
                    ("region", "us-east-1"), ("domain", "example.com")] k = some v) ∧
      (∀ k, pv.get? k = none →
        GoMap.get? [("ShouldPushRepoUpstream", "y"), ("GithubRootOrg", "github.com/acme"),
                    ("region", "us-east-1"), ("domain", "example.com")] k =
          top.Parameters.get? k) ∧
      (∀ k, GoMap.get? [("ShouldPushRepoUpstream", "y"), ("GithubRootOrg", "github.com/acme"),
                        ("region", "us-east-1"), ("domain", "example.com")] k ≠ none →
        pv.get? k ≠ none ∨ top.Parameters.get? k ≠ none) :=
  ⟨rfl,
   init_parameters_grow envStack
     ⟨fun _ => List.Perm.refl _, fun _ => List.Perm.refl _, fun _ => List.Perm.refl _⟩
     "out" []
     { Name := "", Infrastructure := { AWS := none },
       Parameters := [("ShouldPushRepoUpstream", "y"), ("GithubRootOrg", "github.com/acme"),
                      ("region", "us-east-1"), ("domain", "example.com")],
       Modules := [] }
     (Init envStack "out" (World.init [])).2 rfl⟩

/-! ## A declined push upstream (C1) -/

theorem envDecline_rangeOK : envDecline.RangeOK :=
  ⟨fun _ => List.Perm.refl _, fun _ => List.Perm.refl _, fun _ => List.Perm.refl _⟩

theorem envAccept_rangeOK (token : String) : (envAccept token).RangeOK :=
  ⟨fun _ => List.Perm.refl _, fun _ => List.Perm.refl _, fun _ => List.Perm.refl _⟩

theorem forall₂_fetched_mem (env : Env) (sources : List String) (fetched : List ModuleConfig)
    (h : List.Forall₂ (fun s md => env.FetchModule s = .ok md) sources fetched)
    (md : ModuleConfig) (hmd : md ∈ fetched) : ∃ s ∈ sources, env.FetchModule s = .ok md := by
  induction h with
  | nil => simp at hmd
  | cons hs _ ih =>
    rcases List.mem_cons.mp hmd with rfl | hmd
    · exact ⟨_, List.mem_cons_self _ _, hs⟩
    · obtain ⟨s, hs', hf⟩ := ih hmd
      exact ⟨s, List.mem_cons_of_mem _ hs', hf⟩

theorem loadAllModules_ok_iff (env : Env) (sources : List String) (w : World)
    (mods : GoMap ModuleConfig) (w' : World) (h : loadAllModules env sources w = (.ok mods, w')) :
    ∃ fetched, List.Forall₂ (fun s md => env.FetchModule s = .ok md) sources fetched ∧
      mods = insertModules fetched [] := by
  rcases fetch_all_or_first_failure env sources with ⟨fetched, hf⟩ | ⟨pre, s, post, err, rfl, hpre, hs⟩
  · rw [loadAllModules, loadAllModulesLoop_ok env sources fetched hf] at h
    simp only [Prod.mk.injEq, Except.ok.injEq] at h
    exact ⟨fetched, hf, h.1.symm⟩
  · rw [loadAllModules, loadAllModulesLoop_error env pre s post err hpre hs] at h
    simp at h

theorem loadAllModules_values (env : Env) (sources : List String) (w : World)
    (mods : GoMap ModuleConfig) (w' : World) (h : loadAllModules env sources w = (.ok mods, w'))
    (n : String) (md : ModuleConfig) (hmem : (n, md) ∈ mods) :
    ∃ s ∈ sources, env.FetchModule s = .ok md := by
  obtain ⟨fetched, hf, rfl⟩ := loadAllModules_ok_iff env sources w mods w' h
  have hnd : (insertModules fetched []).keys.Nodup :=
    nodup_keys_insertModules fetched [] (by simp [GoMap.keys])
  have hget := GoMap.get?_of_mem _ hnd n md hmem
  rw [get?_insertModules] at hget
  cases hfind : fetched.reverse.find? (fun md => decide (md.Name = n)) with
  | none => simp [hfind, GoMap.get?] at hget
  | some md' =>
    simp only [hfind, Option.some.injEq] at hget
    subst hget
    have : md' ∈ fetched := List.mem_reverse.mp (List.mem_of_find?_eq_some hfind)
    exact forall₂_fetched_mem env sources fetched hf md' this

theorem mem_declaredFields (iter : List (String × ModuleConfig)) (k : String) :
    k ∈ declaredFields iter ↔ ∃ e ∈ iter, ∃ p ∈ e.2.Parameters, p.Field = k := by
  induction iter with
  | nil => simp [declaredFields]
  | cons e rest ih =>
    simp only [declaredFields, List.mem_append, List.mem_map, ih, List.mem_cons]
    constructor
    · rintro (⟨p, hp, rfl⟩ | ⟨e', he', p, hp, rfl⟩)
      · exact ⟨e, Or.inl rfl, p, hp, rfl⟩
      · exact ⟨e', Or.inr he', p, hp, rfl⟩
    · rintro ⟨e', rfl | he', p, hp, rfl⟩
      · exact Or.inl ⟨p, hp, rfl⟩
      · exact Or.inr ⟨e', he', p, hp, rfl⟩

/-- A Field that no module of the chosen stack declares is not in the map
`promptAllModules` returns. -/
theorem promptAllModules_get?_none (env : Env) (hr : env.RangeOK) (sources : List String)
    (w1 : World) (mods : GoMap ModuleConfig) (w2 : World) (pv : GoMap String) (w3 : World)
    (hl : loadAllModules env sources w1 = (.ok mods, w2))
    (hp : promptAllModules env mods w2 = (.ok pv, w3)) (k : String)
    (hk : ∀ s ∈ sources, ∀ md, env.FetchModule s = .ok md → ∀ p ∈ md.Parameters, p.Field ≠ k) :
    pv.get? k = none := by
  have h1 := (promptAllModulesLoop_get? env _ _ _ _ _ hp).1 k
  rw [h1]
  · rfl
  · intro hmem
    obtain ⟨e, he, p, hp', hpk⟩ := (mem_declaredFields _ k).mp hmem
    have he' : e ∈ mods := (hr.1 mods).mem_iff.mp he
    obtain ⟨s, hs, hf⟩ := loadAllModules_values env sources w1 mods w2 hl e.1 e.2 he'
    exact hk s hs e.2 hf p hp' hpk

theorem chooseStack_ok (env : Env) (w : World) (sources : List String) (w1 : World)
    (h : chooseStack env getRegistry w = (.ok sources, w1)) :
    ∃ label, env.select (stackItems env) = some label ∧ sources = getRegistry.index label [] ∧
      w1 = w.emit (.select (stackItems env)) := by
  rw [chooseStack_eq] at h
  cases hs : env.select (stackItems env) with
  | none => simp [hs] at h
  | some label =>
    simp only [hs, Prod.mk.injEq, Except.ok.injEq] at h
    exact ⟨label, rfl, h.1.symm, h.2.symm⟩

/-- C1 (amended): when the push-upstream prompt is answered "n" and no module of the
chosen stack declares the Field "GithubRootOrg" or "githubPersonalToken", the returned
parameters hold "GithubRootOrg" with the empty string and do not hold
"githubPersonalToken". -/
theorem init_declined_push (env : Env) (hr : env.RangeOK) (outDir : String)
    (store : GoMap ProjectCredential) (cfg : ZeroProjectConfig) (w : World)
    (h : Init env outDir (World.init store) = (.ok cfg, w))
    (hn : env.input 1 labelShouldPush "y" = some "n")
    (hmods : ∀ label, env.select (stackItems env) = some label →
      ∀ s ∈ getRegistry.index label [], ∀ md, env.FetchModule s = .ok md →
        ∀ p ∈ md.Parameters, p.Field ≠ "GithubRootOrg" ∧ p.Field ≠ "githubPersonalToken") :
    cfg.Parameters.get? "GithubRootOrg" = some "" ∧
      cfg.Parameters.get? "githubPersonalToken" = none := by
  obtain ⟨top, w1, sources, w2, mods, w3, pv, ht, hc, hl, hp, hnd, rfl⟩ :=
    Init_stages env outDir store cfg w h
  have hkeep : ∀ k, pv.get? k = none →
      (mergeParameters (env.rangeParameters pv) top.Parameters).get? k =
        top.Parameters.get? k := by
    intro k hk
    rw [get?_merge_range env hr pv hnd, hk]
  obtain ⟨label, hsel, rfl, -⟩ := chooseStack_ok env w1 _ w2 hc
  have hm := hmods label hsel
  have hg1 : pv.get? "GithubRootOrg" = none :=
    promptAllModules_get?_none env hr _ w2 mods w3 pv w hl hp _
      (fun s hs md hf p hp' => (hm s hs md hf p hp').1)
  have hg2 : pv.get? "githubPersonalToken" = none :=
    promptAllModules_get?_none env hr _ w2 mods w3 pv w hl hp _
      (fun s hs md hf p hp' => (hm s hs md hf p hp').2)
  rw [hkeep _ hg1, hkeep _ hg2]
  rcases initTopLevel_cases env outDir store with
    ⟨e, he⟩ | ⟨_, e, he⟩ | ⟨_, e, he⟩ | ⟨_, e, he⟩ | ⟨_, _, e, he⟩ |
    ⟨name, a1, h0, hmk, h1, hy⟩ | ⟨name, org, t, h0, hmk, h1, h2, h3⟩
  · rw [he] at ht; simp at ht
  · rw [he] at ht; simp at ht
  · rw [he] at ht; simp at ht
  · rw [he] at ht; simp at ht
  · rw [he] at ht; simp at ht
  · rw [initTopLevel_skip env outDir store name a1 h0 hmk h1 hy] at ht
    simp only [Prod.mk.injEq, Except.ok.injEq] at ht
    obtain ⟨rfl, -⟩ := ht
    simp [GoMap.get?]
  · rw [hn] at h1
    simp at h1

/-- C1 (amended) at the run `envDecline`: the push upstream is declined and the stack
has no module. -/
theorem init_declined_push_witness :
    (Init envDecline "out" (World.init [])).1 =
        .ok { Name := "demo", Infrastructure := { AWS := none },
              Parameters := [("ShouldPushRepoUpstream", "n"), ("GithubRootOrg", "")],
              Modules := [] } ∧
      GoMap.get? [("ShouldPushRepoUpstream", "n"), ("GithubRootOrg", "")] "GithubRootOrg" =
        some "" ∧
      GoMap.get? [("ShouldPushRepoUpstream", "n"), ("GithubRootOrg", "")] "githubPersonalToken" =
        none :=
  ⟨rfl,
   init_declined_push envDecline envDecline_rangeOK "out" []
     { Name := "demo", Infrastructure := { AWS := none },
       Parameters := [("ShouldPushRepoUpstream", "n"), ("GithubRootOrg", "")], Modules := [] }
     (Init envDecline "out" (World.init [])).2 rfl rfl
     (fun label hl s hs => by
        have : label = "Custom" := by
          have h2 : envDecline.select (stackItems envDecline) = some "Custom" := rfl
          rw [h2] at hl
          exact (Option.some.inj hl).symm
        subst this
        exact absurd hs (by simp [getRegistry, GoMap.index, GoMap.get?]))⟩

/-- C1 (as stated) fails: with the push-upstream prompt answered "n" and the stack
without modules, the returned parameters do hold the key "GithubRootOrg". -/
theorem init_declined_push_keeps_org_key :
    envDecline.input 1 labelShouldPush "y" = some "n" ∧
      ∃ cfg w, Init envDecline "out" (World.init []) = (.ok cfg, w) ∧
        ¬ (cfg.Parameters.get? "GithubRootOrg" = none ∧
           cfg.Parameters.get? "githubPersonalToken" = none) :=
  ⟨rfl, _, _, rfl, by decide⟩

/-! ## The stack without modules (C2) -/

theorem Frame.filter_isSave {w w' : World} (h : Frame w w') :
    w'.trace.filter Event.isSave = w.trace.filter Event.isSave := by
  obtain ⟨-, evs, ht, hp⟩ := h
  rw [ht, List.filter_append]
  have : evs.filter Event.isSave = [] := by
    rw [List.filter_eq_nil_iff]
    intro e he
    have := hp e he
    cases e <;> simp_all [Event.isModuleStage, Event.isSave]
  rw [this, List.append_nil]

theorem loadAllModules_nil (env : Env) (w : World) : loadAllModules env [] w = (.ok [], w) := rfl

theorem promptAllModules_nil (env : Env) (hr : env.RangeOK) (w : World) :
    promptAllModules env [] w = (.ok [], w) := by
  have : env.rangeModules [] = [] := List.Perm.eq_nil (hr.1 [])
  simp [promptAllModules, this, promptAllModulesLoop, Run.pure]

/-- C2 (amended): a run of `Init` that reaches the stack choice and picks "Custom"
returns; the module list is empty and the returned parameters are exactly the
top-level results: the push-upstream answer, the organisation (the empty string when
skipped), and the token only when it is non-empty and differs from the stored one. -/
theorem init_custom_stack (env : Env) (hr : env.RangeOK) (outDir : String)
    (store : GoMap ProjectCredential) (top : ZeroProjectConfig) (w1 : World)
    (htop : initTopLevel env outDir (World.init store) = (.ok top, w1))
    (hsel : env.select (stackItems env) = some "Custom") :
    ∃ cfg w, Init env outDir (World.init store) = (.ok cfg, w) ∧
    cfg.Modules = [] ∧
    ∃ name a1, env.input 0 "Project Name" "" = some name ∧
      env.input 1 labelShouldPush "y" = some a1 ∧
      ((a1 ≠ "y" ∧ cfg.Parameters = [("ShouldPushRepoUpstream", a1), ("GithubRootOrg", "")]) ∨
       (a1 = "y" ∧ ∃ org t, env.input 2 labelRootOrg "github.com/" = some org ∧
          env.input 3 labelToken (storedToken store name) = some t ∧
          cfg.Parameters =
            if t ≠ "" ∧ t ≠ storedToken store name then
              [("ShouldPushRepoUpstream", "y"), ("GithubRootOrg", org), ("githubPersonalToken", t)]
            else [("ShouldPushRepoUpstream", "y"), ("GithubRootOrg", org)])) := by
  have hsrc : getRegistry.index "Custom" [] = [] := rfl
  have hnil : env.rangeParameters [] = [] := List.Perm.eq_nil (hr.2.1 [])
  have hInit : Init env outDir (World.init store) =
      (.ok top, w1.emit (.select (stackItems env))) := by
    rw [Init_of_top_ok env outDir _ _ _ htop, initModules_eq, chooseStack_eq, hsel]
    simp only [hsrc, loadAllModules_nil, promptAllModules_nil env hr, hnil, mergeParameters,
      List.foldl_nil]
  refine ⟨top, _, hInit, ?_⟩
  rcases initTopLevel_cases env outDir store with
    ⟨e, he⟩ | ⟨_, e, he⟩ | ⟨_, e, he⟩ | ⟨_, e, he⟩ | ⟨_, _, e, he⟩ |
    ⟨name, a1, h0, hmk, h1, hy⟩ | ⟨name, org, t, h0, hmk, h1, h2, h3⟩
  · rw [he] at htop; simp at htop
  · rw [he] at htop; simp at htop
  · rw [he] at htop; simp at htop
  · rw [he] at htop; simp at htop
  · rw [he] at htop; simp at htop
  · rw [initTopLevel_skip env outDir store name a1 h0 hmk h1 hy] at htop
    simp only [Prod.mk.injEq, Except.ok.injEq] at htop
    obtain ⟨rfl, -⟩ := htop
    exact ⟨rfl, name, a1, h0, h1, Or.inl ⟨hy, rfl⟩⟩
  · rw [initTopLevel_push env outDir store name org t h0 hmk h1 h2 h3] at htop
    refine ⟨?_, name, "y", h0, h1, Or.inr ⟨rfl, org, t, h2, h3, ?_⟩⟩
    · split at htop <;>
      · simp only [Prod.mk.injEq, Except.ok.injEq] at htop
        obtain ⟨rfl, -⟩ := htop
        rfl
    · split at htop <;> rename_i hcond <;>
      · simp only [Prod.mk.injEq, Except.ok.injEq] at htop
        obtain ⟨rfl, -⟩ := htop
        first
          | rw [if_pos hcond]
          | rw [if_neg hcond]

/-- C2 (amended) at the run `envAccept "new"`: the stack "Custom" with a token that
differs from the stored one. -/
theorem init_custom_stack_witness :
    (envAccept "new").select (stackItems (envAccept "new")) = some "Custom" ∧
    ∃ cfg w, Init (envAccept "new") "out" (World.init storeDemo) = (.ok cfg, w) ∧
      cfg.Modules = [] ∧
      ∃ name a1, (envAccept "new").input 0 "Project Name" "" = some name ∧
        (envAccept "new").input 1 labelShouldPush "y" = some a1 ∧
        ((a1 ≠ "y" ∧
            cfg.Parameters = [("ShouldPushRepoUpstream", a1), ("GithubRootOrg", "")]) ∨
         (a1 = "y" ∧ ∃ org t, (envAccept "new").input 2 labelRootOrg "github.com/" = some org ∧
            (envAccept "new").input 3 labelToken (storedToken storeDemo name) = some t ∧
            cfg.Parameters =
              if t ≠ "" ∧ t ≠ storedToken storeDemo name then
                [("ShouldPushRepoUpstream", "y"), ("GithubRootOrg", org),
                 ("githubPersonalToken", t)]
              else [("ShouldPushRepoUpstream", "y"), ("GithubRootOrg", org)])) :=
  ⟨rfl,
   init_custom_stack (envAccept "new") (envAccept_rangeOK "new") "out" storeDemo
     { Name := "demo", Infrastructure := { AWS := none },
       Parameters := [("ShouldPushRepoUpstream", "y"), ("GithubRootOrg", "github.com/acme"),
                      ("githubPersonalToken", "new")],
       Modules := [] }
     (initTopLevel (envAccept "new") "out" (World.init storeDemo)).2 rfl rfl⟩

/-- C2 (as stated) fails: with the stack "Custom", the token prompt answered "tok" and
"tok" already stored for the project, the returned parameters lack the answered key
"githubPersonalToken". -/
theorem init_custom_stack_drops_stored_token :
    (envAccept "tok").select (stackItems (envAccept "tok")) = some "Custom" ∧
    (envAccept "tok").input 3 labelToken (storedToken storeDemo "demo") = some "tok" ∧
    ∃ cfg w, Init (envAccept "tok") "out" (World.init storeDemo) = (.ok cfg, w) ∧
      Event.input labelToken "tok" ∈ w.trace ∧
      cfg.Parameters.get? "githubPersonalToken" = none ∧
      cfg.Parameters = [("ShouldPushRepoUpstream", "y"), ("GithubRootOrg", "github.com/acme")] :=
  ⟨rfl, rfl, _, _, rfl, by decide, rfl, rfl⟩

/-! ## The token and the credential store (C5) -/

/-- C5 (amended): with `t` the result of the token prompt and `s` the stored token,
`Init` saves the credentials with the token `t` and sets the parameter exactly when
`t` is non-empty and differs from `s`; when `t` is empty or equals `s` it writes
neither the store nor the parameter. -/
theorem init_token_write (env : Env) (outDir : String) (store : GoMap ProjectCredential)
    (name t : String) (h0 : env.input 0 "Project Name" "" = some name)
    (hmk : env.mkdirAll (env.join outDir name) = .ok)
    (ht : (env.input 1 labelShouldPush "y" = some "y" ∧
            ∃ org, env.input 2 labelRootOrg "github.com/" = some org ∧
              env.input 3 labelToken (storedToken store name) = some t) ∨
          (∃ a1, env.input 1 labelShouldPush "y" = some a1 ∧ a1 ≠ "y" ∧ t = "")) :
    ∃ top w1, initTopLevel env outDir (World.init store) = (.ok top, w1) ∧
      (tokenCredential store name t).AccessToken = t ∧
      (t ≠ "" ∧ t ≠ storedToken store name →
        top.Parameters.get? "githubPersonalToken" = some t ∧
        (Init env outDir (World.init store)).2.trace.filter Event.isSave =
          [.save (tokenCredential store name t)] ∧
        (Init env outDir (World.init store)).2.store =
          store.set (tokenCredential store name t).ProjectName (tokenCredential store name t)) ∧
      (t = "" ∨ t = storedToken store name →
        top.Parameters.get? "githubPersonalToken" = none ∧
        (Init env outDir (World.init store)).2.trace.filter Event.isSave = [] ∧
        (Init env outDir (World.init store)).2.store = store) := by
  rcases ht with ⟨h1, org, h2, h3⟩ | ⟨a1, h1, hy, rfl⟩
  · have htop := initTopLevel_push env outDir store name org t h0 hmk h1 h2 h3
    by_cases hc : t ≠ "" ∧ t ≠ storedToken store name
    · rw [if_pos hc] at htop
      refine ⟨_, _, htop, rfl, ?_, ?_⟩
      · intro _
        have hI := Init_of_top_ok env outDir _ _ _ htop
        have hF := initModules_frame env
          { Name := name, Infrastructure := { AWS := none },
            Parameters := [("ShouldPushRepoUpstream", "y"), ("GithubRootOrg", org),
                           ("githubPersonalToken", t)],
            Modules := [] }
          { trace := topTrace env outDir name "y" ++ pushTrace store name org ++
              [.save (tokenCredential store name t)],
            store := store.set (tokenCredential store name t).ProjectName
                       (tokenCredential store name t),
            prompts := 4 }
        rw [← hI] at hF
        refine ⟨by simp [GoMap.get?], ?_, hF.1⟩
        rw [hF.filter_isSave]
        simp [topTrace, pushTrace, Event.isSave, List.filter]
      · intro hn
        exact absurd hc (by
          rcases hn with h | h
          · exact fun hc => hc.1 h
          · exact fun hc => hc.2 h)
    · rw [if_neg hc] at htop
      refine ⟨_, _, htop, rfl, fun h => absurd h hc, ?_⟩
      intro _
      have hI := Init_of_top_ok env outDir _ _ _ htop
      have hF := initModules_frame env
        { Name := name, Infrastructure := { AWS := none },
          Parameters := [("ShouldPushRepoUpstream", "y"), ("GithubRootOrg", org)],
          Modules := [] }
        { trace := topTrace env outDir name "y" ++ pushTrace store name org,
          store := store, prompts := 4 }
      rw [← hI] at hF
      refine ⟨by simp [GoMap.get?], ?_, hF.1⟩
      rw [hF.filter_isSave]
      simp [topTrace, pushTrace, Event.isSave, List.filter]
  · have htop := initTopLevel_skip env outDir store name a1 h0 hmk h1 hy
    refine ⟨_, _, htop, rfl, fun h => absurd rfl h.1, ?_⟩
    intro _
    have hI := Init_of_top_ok env outDir _ _ _ htop
    have hF := initModules_frame env
      { Name := name, Infrastructure := { AWS := none },
        Parameters := [("ShouldPushRepoUpstream", a1), ("GithubRootOrg", "")],
        Modules := [] }
      { trace := topTrace env outDir name a1 ++
          [.evalCondition (.KeyMatchCondition "ShouldPushRepoUpstream" "y")
             [("ShouldPushRepoUpstream", a1), ("GithubRootOrg", "")]],
        store := store, prompts := 2 }
    rw [← hI] at hF
    refine ⟨by simp [GoMap.get?], ?_, hF.1⟩
    rw [hF.filter_isSave]
    simp [topTrace, Event.isSave, List.filter]

/-- C5 (amended) at the run `envAccept "new"` over a store that holds the token
"tok": the new token is saved and set. -/
theorem init_token_write_witness :
    ∃ top w1, initTopLevel (envAccept "new") "out" (World.init storeDemo) = (.ok top, w1) ∧
      (tokenCredential storeDemo "demo" "new").AccessToken = "new" ∧
      ("new" ≠ "" ∧ "new" ≠ storedToken storeDemo "demo" →
        top.Parameters.get? "githubPersonalToken" = some "new" ∧
        (Init (envAccept "new") "out" (World.init storeDemo)).2.trace.filter Event.isSave =
          [.save (tokenCredential storeDemo "demo" "new")] ∧
        (Init (envAccept "new") "out" (World.init storeDemo)).2.store =
          storeDemo.set (tokenCredential storeDemo "demo" "new").ProjectName
            (tokenCredential storeDemo "demo" "new")) ∧
      ("new" = "" ∨ "new" = storedToken storeDemo "demo" →
        top.Parameters.get? "githubPersonalToken" = none ∧
        (Init (envAccept "new") "out" (World.init storeDemo)).2.trace.filter Event.isSave = [] ∧
        (Init (envAccept "new") "out" (World.init storeDemo)).2.store = storeDemo) :=
  init_token_write (envAccept "new") "out" storeDemo "demo" "new" rfl rfl
    (Or.inl ⟨rfl, "github.com/acme", rfl, rfl⟩)

/-- C5 (as stated) fails: the token prompt returns the empty string, which differs
from the stored token "tok", and `Init` writes neither the store nor the parameter. -/
theorem init_empty_token_not_saved :
    (envAccept "").input 3 labelToken (storedToken storeDemo "demo") = some "" ∧
    "" ≠ storedToken storeDemo "demo" ∧
    ∃ cfg w, Init (envAccept "") "out" (World.init storeDemo) = (.ok cfg, w) ∧
      w.trace.filter Event.isSave = [] ∧ w.store = storeDemo ∧
      cfg.Parameters.get? "githubPersonalToken" = none :=
  ⟨rfl, by decide, _, _, rfl, rfl, rfl, rfl⟩

/-! ## Conditions read resolved fields only (C7) -/

/-- C4: `loadAllModules` ends in the fatal module-fetch failure exactly when some source
fails to fetch; it stops at the first failing source, having fetched only the sources
up to it, and returns no module map; a run of `Init` that reaches it then ends in the
same failure without prompting any module parameter and without a configuration. -/
theorem loadAllModules_fatal (env : Env) :
    (∀ sources w, (∃ e, (loadAllModules env sources w).1 = .error (.moduleFetch e)) ↔
        ∃ x ∈ sources, ∃ e, env.FetchModule x = .error e) ∧
    (∀ pre s post err w,
        (∀ p ∈ pre, ∃ md, env.FetchModule p = .ok md) → env.FetchModule s = .error err →
        loadAllModules env (pre ++ s :: post) w =
          (.error (.moduleFetch err),
           { w with trace := w.trace ++ (pre ++ [s]).map Event.fetch })) ∧
    (∀ pre s post err outDir store top w1 w2,
        (∀ p ∈ pre, ∃ md, env.FetchModule p = .ok md) → env.FetchModule s = .error err →
        initTopLevel env outDir (World.init store) = (.ok top, w1) →
        chooseStack env getRegistry w1 = (.ok (pre ++ s :: post), w2) →
        Init env outDir (World.init store) =
          (.error (.moduleFetch err),
           { w2 with trace := w2.trace ++ (pre ++ [s]).map Event.fetch })) := by
  refine ⟨?_, ?_, ?_⟩
  · intro sources w
    constructor
    · rintro ⟨e, he⟩
      rcases fetch_all_or_first_failure env sources with
        ⟨fetched, hf⟩ | ⟨pre', s', post', err', rfl, -, hs'⟩
      · rw [loadAllModules, loadAllModulesLoop_ok env sources fetched hf] at he
        simp at he
      · exact ⟨s', by simp, err', hs'⟩
    · rintro ⟨x, hx, e, hxe⟩
      rcases fetch_all_or_first_failure env sources with
        ⟨fetched, hf⟩ | ⟨pre', s', post', err', rfl, hpre', hs'⟩
      · exfalso
        have : ∀ y ∈ sources, ∃ md, env.FetchModule y = .ok md := by
          intro y hy
          clear hx hxe
          induction hf with
          | nil => simp at hy
          | cons h1 _ ih =>
            rcases List.mem_cons.mp hy with rfl | hy
            · exact ⟨_, h1⟩
            · exact ih hy
        obtain ⟨md, hmd⟩ := this x hx
        rw [hmd] at hxe
        simp at hxe
      · exact ⟨err', by rw [loadAllModules, loadAllModulesLoop_error env pre' s' post' err' hpre' hs']⟩
  · intro pre s post err w hpre hs
    exact loadAllModulesLoop_error env pre s post err hpre hs [] w
  · intro pre s post err outDir store top w1 w2 hpre hs htop hc
    rw [Init_of_top_ok env outDir _ _ _ htop, initModules_eq, hc]
    simp only []
    have := loadAllModulesLoop_error env pre s post err hpre hs [] w2
    rw [loadAllModules, this]

/-- C4 at the run `envFetchFails`: the second of the three sources of the stack fails;
the run ends in the fetch failure after two fetches, with no prompt after the stack
choice. -/
theorem loadAllModules_fatal_witness :
    Init envFetchFails "out" (World.init []) =
      (.error (.moduleFetch "unreachable"),
       { trace :=
           [ .evalCondition .NoCondition [], .input "Project Name" "",
             .mkdirAll "out/",
             .evalCondition .NoCondition [], .input labelShouldPush "y",
             .evalCondition (.KeyMatchCondition "ShouldPushRepoUpstream" "y")
               [("ShouldPushRepoUpstream", "y")],
             .input labelRootOrg "github.com/",
             .evalCondition (.KeyMatchCondition "ShouldPushRepoUpstream" "y")
               [("ShouldPushRepoUpstream", "y"), ("GithubRootOrg", "github.com/")],
             .input labelToken "",
             .select ["EKS + Go + React", "Custom"],
             .fetch "github.com/commitdev/zero-aws-eks-stack",
             .fetch "github.com/commitdev/zero-deployable-backend" ],
         store := [], prompts := 4 }) :=
  (loadAllModules_fatal envFetchFails).2.2 ["github.com/commitdev/zero-aws-eks-stack"]
    "github.com/commitdev/zero-deployable-backend"
    ["github.com/commitdev/zero-deployable-react-frontend"] "unreachable" "out" [] _ _ _
    (fun p hp => by
      rw [List.mem_singleton] at hp
      subst hp
      exact ⟨_, rfl⟩)
    rfl rfl rfl

/-! ## Repeated module names (C10) -/

/-- C10: when every source fetches, `loadAllModules` returns a map with one entry per
distinct module Name, the entry of a Name being the module of the last source with
that Name; it has one entry per source exactly when the Names are pairwise distinct;
a `range` over the map visits only these last modules. -/
theorem loadAllModules_last_wins (env : Env) (sources : List String)
    (fetched : List ModuleConfig)
    (h : List.Forall₂ (fun s md => env.FetchModule s = .ok md) sources fetched) (w : World) :
    ∃ mods, loadAllModules env sources w =
        (.ok mods, { w with trace := w.trace ++ sources.map Event.fetch }) ∧
      mods.keys.Nodup ∧
      (∀ n, n ∈ mods.keys ↔ n ∈ fetched.map (fun md => md.Name)) ∧
      (∀ n, mods.get? n = fetched.reverse.find? (fun md => decide (md.Name = n))) ∧
      (mods.length = sources.length ↔ (fetched.map (fun md => md.Name)).Nodup) ∧
      (∀ iter, IsRangeOf iter mods → ∀ e ∈ iter,
        fetched.reverse.find? (fun md => decide (md.Name = e.1)) = some e.2) := by
  have hnd : (insertModules fetched []).keys.Nodup :=
    nodup_keys_insertModules fetched [] (by simp [GoMap.keys])
  have hmem : ∀ n, n ∈ (insertModules fetched []).keys ↔ n ∈ fetched.map (fun md => md.Name) := by
    intro n
    rw [mem_keys_insertModules]
    simp [GoMap.keys]
  have hget : ∀ n, (insertModules fetched []).get? n =
      fetched.reverse.find? (fun md => decide (md.Name = n)) := by
    intro n
    rw [get?_insertModules]
    cases fetched.reverse.find? (fun md => decide (md.Name = n)) <;> rfl
  refine ⟨insertModules fetched [], loadAllModulesLoop_ok env sources fetched h [] w,
    hnd, hmem, hget, ?_, ?_⟩
  · have hlen : (insertModules fetched []).length = (insertModules fetched []).keys.length := by
      simp [GoMap.keys]
    have hlen2 : sources.length = (fetched.map (fun md => md.Name)).length := by
      rw [List.length_map]
      exact h.length_eq
    rw [hlen, hlen2]
    exact length_eq_iff_nodup_of_keys hnd hmem
  · intro iter hiter e he
    have he' : e ∈ insertModules fetched [] := hiter.mem_iff.mp he
    rw [← hget]
    exact GoMap.get?_of_mem _ hnd e.1 e.2 he'

/-- C10 at three sources of which the first and the third yield a module named
"core". -/
theorem loadAllModules_last_wins_witness :
    ∃ mods, loadAllModules envRepeated ["src/one", "src/two", "src/three"] (World.init []) =
        (.ok mods,
         { World.init [] with
           trace := (World.init []).trace ++
             ["src/one", "src/two", "src/three"].map Event.fetch }) ∧
      mods.keys.Nodup ∧
      (∀ n, n ∈ mods.keys ↔
        n ∈ [demoModule "core" [("region", "us-east-1")],
             demoModule "web" [("domain", "example.com")],
             demoModule "core" [("zone", "b")]].map (fun md => md.Name)) ∧
      (∀ n, mods.get? n =
        [demoModule "core" [("region", "us-east-1")],
         demoModule "web" [("domain", "example.com")],
         demoModule "core" [("zone", "b")]].reverse.find? (fun md => decide (md.Name = n))) ∧
      (mods.length = ["src/one", "src/two", "src/three"].length ↔
        ([demoModule "core" [("region", "us-east-1")],
          demoModule "web" [("domain", "example.com")],
          demoModule "core" [("zone", "b")]].map (fun md => md.Name)).Nodup) ∧
      (∀ iter, IsRangeOf iter mods → ∀ e ∈ iter,
        [demoModule "core" [("region", "us-east-1")],
         demoModule "web" [("domain", "example.com")],
         demoModule "core" [("zone", "b")]].reverse.find?
          (fun md => decide (md.Name = e.1)) = some e.2) :=
  loadAllModules_last_wins envRepeated ["src/one", "src/two", "src/three"]
    [demoModule "core" [("region", "us-east-1")],
     demoModule "web" [("domain", "example.com")],
     demoModule "core" [("zone", "b")]]
    (List.Forall₂.cons rfl (List.Forall₂.cons rfl (List.Forall₂.cons rfl List.Forall₂.nil)))
    (World.init [])

/-! ## Fields shared by modules (C3) -/

theorem promptAllModulesLoop_append (env : Env) (l₁ l₂ : List (String × ModuleConfig))
    (acc : GoMap String) (w : World) :
    promptAllModulesLoop env (l₁ ++ l₂) acc w =
      match promptAllModulesLoop env l₁ acc w with
      | (.ok a, w₁) => promptAllModulesLoop env l₂ a w₁
      | (.error e, w₁) => (.error e, w₁) := by
  induction l₁ generalizing acc w with
  | nil => rfl
  | cons e rest ih =>
    obtain ⟨n, config⟩ := e
    simp only [List.cons_append, promptAllModulesLoop, Run.bind]
    rcases PromptModuleParams env config acc w with ⟨_ | a, w₁⟩
    · rfl
    · exact ih a w₁

theorem PromptModuleParamsLoop_prompts (env : Env) (params : List Parameter)
    (acc : GoMap String) (w : World) (res : GoMap String) (w' : World)
    (h : PromptModuleParamsLoop env params acc w = (.ok res, w')) :
    w'.prompts = w.prompts + params.length := by
  induction params generalizing acc w with
  | nil =>
    simp only [PromptModuleParamsLoop, Run.pure, Prod.mk.injEq, Except.ok.injEq] at h
    obtain ⟨-, rfl⟩ := h
    simp
  | cons p rest ih =>
    simp only [PromptModuleParamsLoop, Run.bind, GetParam_noCondition] at h
    cases hin : env.input w.prompts p.Label p.Default with
    | none => simp [hin] at h
    | some a =>
      simp only [hin] at h
      have := ih _ _ h
      simp only [List.length_cons] at this ⊢
      omega

/-- The last parameter of a module with a given Field is resolved by its own prompt:
the accumulator holds the answer to that prompt, whatever it held before. -/
theorem PromptModuleParamsLoop_last (env : Env) (ps₁ : List Parameter) (p : Parameter)
    (ps₂ : List Parameter) (acc : GoMap String) (w : World) (res : GoMap String) (w' : World)
    (hlast : p.Field ∉ ps₂.map (fun q => q.Field))
    (h : PromptModuleParamsLoop env (ps₁ ++ p :: ps₂) acc w = (.ok res, w')) :
    ∃ answer, env.input (w.prompts + ps₁.length) p.Label p.Default = some answer ∧
      res.get? p.Field = some answer := by
  induction ps₁ generalizing acc w with
  | nil =>
    simp only [List.nil_append, PromptModuleParamsLoop, Run.bind, GetParam_noCondition] at h
    cases hin : env.input w.prompts p.Label p.Default with
    | none => simp [hin] at h
    | some a =>
      simp only [hin] at h
      refine ⟨a, by simpa using hin, ?_⟩
      rw [(PromptModuleParams_get? env ps₂ _ _ res w' h).1 p.Field hlast, GoMap.get?_set]
      simp
  | cons q rest ih =>
    simp only [List.cons_append, PromptModuleParamsLoop, Run.bind, GetParam_noCondition] at h
    cases hin : env.input w.prompts q.Label q.Default with
    | none => simp [hin] at h
    | some a =>
      simp only [hin] at h
      obtain ⟨answer, hans, hres⟩ := ih _ _ h
      refine ⟨answer, ?_, hres⟩
      simp only [List.length_cons] at hans ⊢
      rw [← hans]
      congr 1
      omega

theorem promptAllModulesLoop_prompts (env : Env) (iter : List (String × ModuleConfig))
    (acc : GoMap String) (w : World) (res : GoMap String) (w' : World)
    (h : promptAllModulesLoop env iter acc w = (.ok res, w')) :
    w'.prompts = w.prompts + (declaredFields iter).length := by
  induction iter generalizing acc w with
  | nil =>
    simp only [promptAllModulesLoop, Run.pure, Prod.mk.injEq, Except.ok.injEq] at h
    obtain ⟨-, rfl⟩ := h
    simp [declaredFields]
  | cons e rest ih =>
    obtain ⟨n, config⟩ := e
    simp only [promptAllModulesLoop, Run.bind] at h
    rcases hg : PromptModuleParams env config acc w with ⟨_ | a, w1⟩
    · simp [hg] at h
    · simp only [hg] at h
      have h1 := PromptModuleParamsLoop_prompts env config.Parameters acc w a w1 hg
      have h2 := ih _ _ h
      simp only [declaredFields, List.length_append, List.length_map]
      omega

/-- C3 (amended): the map `promptAllModules` returns holds, for a Field, the value
resolved for the module that the `range` over the modules visits last among those
declaring the Field: the answer to the prompt of that module's last parameter with
the Field, whatever the modules visited earlier wrote under it. -/
theorem promptAllModules_last_visited (env : Env) (modules : GoMap ModuleConfig)
    (pre : List (String × ModuleConfig)) (m : String × ModuleConfig)
    (post : List (String × ModuleConfig)) (ps₁ : List Parameter) (p : Parameter)
    (ps₂ : List Parameter) (w : World) (pv : GoMap String) (w' : World)
    (hsplit : env.rangeModules modules = pre ++ m :: post)
    (hparams : m.2.Parameters = ps₁ ++ p :: ps₂)
    (hlast : p.Field ∉ ps₂.map (fun q => q.Field))
    (hpost : p.Field ∉ declaredFields post)
    (h : promptAllModules env modules w = (.ok pv, w')) :
    ∃ answer,
      env.input (w.prompts + (declaredFields pre).length + ps₁.length) p.Label p.Default =
        some answer ∧
      pv.get? p.Field = some answer ∧
      ∃ acc₁ w₁ acc₂ w₂, promptAllModulesLoop env pre [] w = (.ok acc₁, w₁) ∧
        PromptModuleParams env m.2 acc₁ w₁ = (.ok acc₂, w₂) ∧
        acc₂.get? p.Field = some answer ∧ pv.get? p.Field = acc₂.get? p.Field := by
  rw [promptAllModules, hsplit, promptAllModulesLoop_append] at h
  rcases h1 : promptAllModulesLoop env pre [] w with ⟨_ | acc₁, w₁⟩
  · simp [h1] at h
  · simp only [h1, promptAllModulesLoop, Run.bind] at h
    rcases h2 : PromptModuleParams env m.2 acc₁ w₁ with ⟨_ | acc₂, w₂⟩
    · simp [h2] at h
    · simp only [h2] at h
      have hkeep : pv.get? p.Field = acc₂.get? p.Field :=
        (promptAllModulesLoop_get? env post acc₂ w₂ pv w' h).1 p.Field hpost
      have h2' : PromptModuleParamsLoop env (ps₁ ++ p :: ps₂) acc₁ w₁ = (.ok acc₂, w₂) := by
        rw [← hparams]
        exact h2
      obtain ⟨answer, hans, hres⟩ :=
        PromptModuleParamsLoop_last env ps₁ p ps₂ acc₁ w₁ acc₂ w₂ hlast h2'
      rw [promptAllModulesLoop_prompts env pre [] w acc₁ w₁ h1] at hans
      exact ⟨answer, hans, hkeep.trans hres, acc₁, w₁, acc₂, w₂, rfl, h2, hres, hkeep⟩

/-- C3 (amended) at the modules "A" and "B" visited in reverse order: "A" is visited
last and the answer to its prompt, the second of the run, stands. -/
theorem promptAllModules_last_visited_witness :
    ∃ answer,
      (envRange List.reverse).input
          ((World.init []).prompts +
            (declaredFields [("B", demoModule "B" [("X", "b")])]).length +
            ([] : List Parameter).length) "X" "a" = some answer ∧
      GoMap.get? [("X", "a")] "X" = some answer ∧
      ∃ acc₁ w₁ acc₂ w₂,
        promptAllModulesLoop (envRange List.reverse) [("B", demoModule "B" [("X", "b")])] []
          (World.init []) = (.ok acc₁, w₁) ∧
        PromptModuleParams (envRange List.reverse) (demoModule "A" [("X", "a")]) acc₁ w₁ =
          (.ok acc₂, w₂) ∧
        acc₂.get? "X" = some answer ∧ GoMap.get? [("X", "a")] "X" = acc₂.get? "X" :=
  promptAllModules_last_visited (envRange List.reverse) modulesSharingX
    [("B", demoModule "B" [("X", "b")])] ("A", demoModule "A" [("X", "a")]) []
    [] { Field := "X", Label := "X", Default := "a" } []
    (World.init []) [("X", "a")]
    (promptAllModules (envRange List.reverse) modulesSharingX (World.init [])).2
    rfl rfl (by decide) (by decide) rfl

/-- C3 (as stated) fails: for the two modules "A" and "B" that both declare "X", a
`range` that visits "A" first yields the value of "B" and a `range` that visits "B"
first yields the value of "A"; the result follows the iteration order of the map. -/
theorem promptAllModules_order_dependent :
    IsRangeOf ((envRange id).rangeModules modulesSharingX) modulesSharingX ∧
    IsRangeOf ((envRange List.reverse).rangeModules modulesSharingX) modulesSharingX ∧
    (promptAllModules (envRange id) modulesSharingX (World.init [])).1 = .ok [("X", "b")] ∧
    (promptAllModules (envRange List.reverse) modulesSharingX (World.init [])).1 =
      .ok [("X", "a")] ∧
    (promptAllModules (envRange id) modulesSharingX (World.init [])).1 ≠
      (promptAllModules (envRange List.reverse) modulesSharingX (World.init [])).1 :=
  ⟨List.Perm.refl _, List.reverse_perm _, rfl, rfl, by
    have h1 : (promptAllModules (envRange id) modulesSharingX (World.init [])).1 =
        .ok [("X", "b")] := rfl
    have h2 : (promptAllModules (envRange List.reverse) modulesSharingX (World.init [])).1 =
        .ok [("X", "a")] := rfl
    rw [h1, h2]
    intro h
    injection h with h
    exact absurd h (by decide)⟩

/-! ## The identity lookup (C8) -/

/-- C8: `fillProviderDetails` always returns; when the configuration has an AWS block
and the identity lookup fails without an account identifier, the failure is only
reported and the configuration comes back unchanged; the configuration changes only
when there is an AWS block and the lookup yields an account identifier, and then only
`AccountID` changes, to that identifier. -/
theorem fillProviderDetails_soft
    (lookup : String → String → String → Option CallerIdentity × Option LookupError) :
    (∀ projectConfig s w awsBlock awsCaller err,
      projectConfig.Infrastructure.AWS = some awsBlock →
      lookup awsBlock.Region s.AccessKeyID s.SecretAccessKey = (awsCaller, some err) →
      (∀ c, awsCaller = some c → c.Account = none) →
      ∃ msg, fillProviderDetails lookup projectConfig s w =
        (.ok projectConfig, w.emit (.report msg))) ∧
    (∀ cfg secrets w₀, ∃ cfg' w', fillProviderDetails lookup cfg secrets w₀ = (.ok cfg', w') ∧
      (cfg' = cfg ∨
        ∃ blk caller account, cfg.Infrastructure.AWS = some blk ∧
          (lookup blk.Region secrets.AccessKeyID secrets.SecretAccessKey).1 = some caller ∧
          caller.Account = some account ∧
          cfg' = { cfg with
                   Infrastructure := { AWS := some { blk with AccountID := account } } })) ∧
    (∀ cfg secrets w₀ blk account rest,
      cfg.Infrastructure.AWS = some blk →
      lookup blk.Region secrets.AccessKeyID secrets.SecretAccessKey =
        (some { Account := some account }, rest) →
      (fillProviderDetails lookup cfg secrets w₀).1 =
        .ok { cfg with
              Infrastructure := { AWS := some { blk with AccountID := account } } }) := by
  refine ⟨?_, ?_, ?_⟩
  · intro projectConfig s w awsBlock awsCaller err hblock hfail hnone
    have hcaller : awsCaller = none ∨ awsCaller = some { Account := none } := by
      cases awsCaller with
      | none => exact Or.inl rfl
      | some c =>
        have := hnone c rfl
        cases c with
        | mk acct =>
          simp only at this
          subst this
          exact Or.inr rfl
    cases err with
    | awsErr code message =>
      refine ⟨message, ?_⟩
      rcases hcaller with rfl | rfl <;>
        simp [fillProviderDetails, hblock, hfail, Run.bind, Run.pure, exitError]
    | other message =>
      refine ⟨message, ?_⟩
      rcases hcaller with rfl | rfl <;>
        simp [fillProviderDetails, hblock, hfail, Run.bind, Run.pure, exitError]
  · intro cfg secrets w₀
    cases hb : cfg.Infrastructure.AWS with
    | none =>
      exact ⟨cfg, w₀, by simp [fillProviderDetails, hb, Run.pure], Or.inl rfl⟩
    | some blk =>
      rcases hl : lookup blk.Region secrets.AccessKeyID secrets.SecretAccessKey with ⟨caller, e⟩
      rcases caller with _ | ⟨_ | account⟩
      · refine ⟨cfg, (fillProviderDetails lookup cfg secrets w₀).2, ?_, Or.inl rfl⟩
        rcases e with _ | ⟨_ | _⟩ <;>
          simp [fillProviderDetails, hb, hl, Run.bind, Run.pure, exitError]
      · refine ⟨cfg, (fillProviderDetails lookup cfg secrets w₀).2, ?_, Or.inl rfl⟩
        rcases e with _ | ⟨_ | _⟩ <;>
          simp [fillProviderDetails, hb, hl, Run.bind, Run.pure, exitError]
      · refine ⟨{ cfg with Infrastructure := { AWS := some { blk with AccountID := account } } },
          (fillProviderDetails lookup cfg secrets w₀).2, ?_,
          Or.inr ⟨blk, ⟨some account⟩, account, rfl, by rw [hl], rfl, rfl⟩⟩
        rcases e with _ | ⟨_ | _⟩ <;>
          simp [fillProviderDetails, hb, hl, Run.bind, Run.pure, exitError]
  · intro cfg secrets w₀ blk account rest hb hl
    rcases rest with _ | ⟨_ | _⟩ <;>
      simp [fillProviderDetails, hb, hl, Run.bind, Run.pure, exitError]

/-- C8 at a configuration with an AWS block and a lookup that is denied. -/
theorem fillProviderDetails_soft_witness :
    ∃ msg, fillProviderDetails lookupDenied configWithAWS
        { AccessKeyID := "key", SecretAccessKey := "secret" } (World.init []) =
        (.ok configWithAWS, (World.init []).emit (.report msg)) :=
  (fillProviderDetails_soft lookupDenied).1 configWithAWS
    { AccessKeyID := "key", SecretAccessKey := "secret" } (World.init [])
    { AccountID := "", Region := "us-east-1" } (some { Account := none })
    (.awsErr "InvalidClientTokenId" "invalid token") rfl rfl
    (fun c hc => by
      injection hc with hc
      rw [← hc])

end Zero
